import Mathlib

/-!
# Verification of the `media.image` EXIF metadata decoding engine

This file is a shallow embedding, in Lean 4, of the core EXIF decoding
engine of the `SmartMediaFiles/media.image` repository
(`exifData_parser.go`, `exif_data_types.go`, `image_data.go`), together
with theorems settling the specification claims about it.

Modelling conventions:
* Go strings are Lean `String`s; character-level work happens on `String.data`.
* Go `float64` is modelled by `GoFloat`: either NaN or an exact rational value.
  No claim under verification depends on binary floating-point rounding.
* Go `time.Time` is modelled by `GoTime`: wall-clock components plus a
  `Location`.  Go compares locations by pointer; the `Location` type keeps
  the distinction between the `time.UTC` pointer (`Location.utc`) and a
  fixed-zone value with offset 0 (`Location.fixedZone "" 0`), which is what
  `time.Parse` produces for an explicit numeric `+0000` suffix.
* External collaborators (the tzf timezone finder, `time.LoadLocation`) are
  parameters of the parser, bundled in `Collaborators`.  `LoadLocation` in
  the model returns fixed-offset zones: `adjustTimeWithTimezone` only reads
  the offset of the zone "as of now", so a fixed offset per zone name is an
  adequate observation of the collaborator.
* The `ImageData` Go struct is modelled as a function `FieldId → FieldVal`
  over an enumeration of its fields.  This mirrors the reflection-driven
  field walk of `parseWithReflection`, which itself treats the struct as a
  field-indexed collection.
-/

/-! ## Strings: Go `strings.Split` with a one-character separator -/

/-- Auxiliary state machine for `goSplit`: `acc` holds the current chunk
in reverse order. Models Go `strings.Split` for a one-character separator
(every use in the source splits on `"/"`, `","` or `"\x00"`). -/
def splitCharAux (sep : Char) : List Char → List Char → List (List Char)
  | [], acc => [acc.reverse]
  | c :: cs, acc =>
    if c = sep then acc.reverse :: splitCharAux sep cs []
    else splitCharAux sep cs (c :: acc)

/-- Go `strings.Split(s, sep)` for a single-character separator. -/
def goSplit (sep : Char) (s : String) : List String :=
  (splitCharAux sep s.data []).map String.mk

/-! ## Go `strconv` integer parsing and `fmt` integer printing -/

/-- Numeric value of a decimal digit character, if it is one. -/
def digitVal (c : Char) : Option Nat :=
  if '0' ≤ c ∧ c ≤ '9' then some (c.toNat - 48) else none

/-- Accumulating decimal parser: consumes the whole list, failing on the
first non-digit character. -/
def parseNatAux : List Char → Nat → Option Nat
  | [], acc => some acc
  | c :: cs, acc =>
    match digitVal c with
    | some d => parseNatAux cs (acc * 10 + d)
    | none => none

/-- Digit-and-range part of Go `strconv.ParseInt`: one or more decimal
digits, value within the signed 64-bit range after applying the sign. -/
def goParseIntDigits (neg : Bool) (digits : List Char) : Option Int :=
  if digits = [] then none
  else
    match parseNatAux digits 0 with
    | none => none
    | some n =>
      let v : Int := if neg then -(n : Int) else (n : Int)
      if v < -(2 ^ 63) ∨ (2 ^ 63 - 1 : Int) < v then none else some v

/-- Models Go `strconv.ParseInt(s, 10, 64)` (and `strconv.Atoi` on a
64-bit platform): optional single leading `+`/`-`, then one or more
decimal digits, value within the signed 64-bit range.  Go's incremental
cutoff check accepts exactly the in-range strings, so parsing the full
number first and range-checking afterwards accepts the same set. -/
def goParseInt (s : String) : Option Int :=
  match s.data with
  | [] => none
  | c :: rest =>
    if c = '-' then goParseIntDigits true rest
    else if c = '+' then goParseIntDigits false rest
    else goParseIntDigits false (c :: rest)

/-- Decimal digit character for `d < 10`. -/
def digitChar (d : Nat) : Char := Char.ofNat (48 + d)

/-- Decimal printing with structural fuel (so that the kernel can evaluate
it inside `decide`); `fuel > n` always suffices since the recursion divides
by 10. -/
def natToStrAux : Nat → Nat → List Char
  | 0, _ => []
  | fuel + 1, n =>
    if n < 10 then [digitChar n]
    else natToStrAux fuel (n / 10) ++ [digitChar (n % 10)]

/-- Decimal representation of a natural number, as `fmt.Sprintf("%d")`
prints it (no sign, no leading zeros, `"0"` for zero). -/
def natToStr (n : Nat) : List Char := natToStrAux (n + 1) n

/-- Go `fmt.Sprintf("%d", i)` for a (signed) integer. -/
def intToStr (i : Int) : String :=
  if i < 0 then String.mk ('-' :: natToStr (-i).toNat) else String.mk (natToStr i.toNat)

/-! ## `Rational` (`exif_data_types.go`) -/

/-- The `Rational` struct of `exif_data_types.go`. -/
structure Rational where
  Numerator : Int
  Denominator : Int
deriving DecidableEq, Repr

/-- Function `NewRational` from `exif_data_types.go`: split on `"/"`; fail unless
exactly two parts; parse both with `strconv.Atoi`.  Go's `(Rational, error)`
return is modelled as `Option Rational`. -/
def NewRational (s : String) : Option Rational :=
  match goSplit '/' s with
  | [a, b] =>
    match goParseInt a with
    | none => none
    | some numerator =>
      match goParseInt b with
      | none => none
      | some denominator => some ⟨numerator, denominator⟩
  | _ => none

/-- Method `Rational.String` from `exif_data_types.go`:
`fmt.Sprintf("%d/%d", r.Numerator, r.Denominator)`. -/
def Rational.String (r : Rational) : String :=
  intToStr r.Numerator ++ "/" ++ intToStr r.Denominator

/-! ## Go `float64` model -/

/-- Model of Go `float64` as used by the parser: either NaN or an exact
rational value.  No claim under verification depends on binary rounding,
infinities or signed zeros. -/
inductive GoFloat where
  | nan
  | val (q : ℚ)
deriving DecidableEq, Repr

/-- Go `math.IsNaN`. -/
def GoFloat.isNaN : GoFloat → Bool
  | .nan => true
  | .val _ => false

/-- Longest digit run at the head of the list, and the rest. -/
def takeDigits : List Char → List Char × List Char
  | [] => ([], [])
  | c :: cs =>
    if (digitVal c).isSome then
      let (d, r) := takeDigits cs
      (c :: d, r)
    else ([], c :: cs)

/-- Numeric value of a digit list (digits already validated). -/
def digitsToNat (l : List Char) : Nat :=
  l.foldl (fun acc c => acc * 10 + ((digitVal c).getD 0)) 0

/-- Exponent part of a float literal: optional sign then one or more digits,
consuming the whole input. -/
def parseExp : List Char → Option Int
  | [] => none
  | c :: cs =>
    let (neg, ds) :=
      if c = '-' then (true, cs)
      else if c = '+' then (false, cs)
      else (false, c :: cs)
    if ds = [] then none
    else
      match parseNatAux ds 0 with
      | some n => some (if neg then -(n : Int) else (n : Int))
      | none => none

/-- Models Go `strconv.ParseFloat(s, 64)` for ordinary decimal forms:
optional sign, digits with an optional fractional part (at least one digit
overall), optional `e`/`E` exponent.  The value is kept exact as a
rational.  The `NaN`/`Inf` word forms, hexadecimal floats, underscore
separators and overflow-to-infinity are not modelled; no claim under
verification depends on them. -/
def goParseFloat (s : String) : Option GoFloat :=
  match s.data with
  | [] => none
  | c :: rest =>
    let (neg, cs) :=
      if c = '-' then (true, rest)
      else if c = '+' then (false, rest)
      else (false, c :: rest)
    let (ip, cs₁) := takeDigits cs
    let (fp, cs₂) :=
      match cs₁ with
      | '.' :: r => takeDigits r
      | _ => ([], cs₁)
    if ip = [] ∧ fp = [] then none
    else
      let mant : ℚ := (digitsToNat ip : ℚ) + (digitsToNat fp : ℚ) / (10 : ℚ) ^ fp.length
      let signed : ℚ := if neg then -mant else mant
      match cs₂ with
      | [] => some (.val signed)
      | e :: r =>
        if e = 'e' ∨ e = 'E' then
          match parseExp r with
          | some ex => some (.val (signed * (10 : ℚ) ^ (ex : Int)))
          | none => none
        else none

/-! ## Go `time` model -/

/-- Model of Go `*time.Location`.  Go compares locations by pointer:
`time.UTC` is a distinguished pointer, and a `FixedZone` or IANA location
is never pointer-equal to it even when its offset is zero.  The parser
only consumes a location through (a) pointer comparison with `time.UTC`
and (b) its current UTC offset, so each constructor carries just a name
and a fixed offset. -/
inductive Location where
  | utc
  | fixedZone (name : String) (offsetSec : Int)
  | iana (name : String) (offsetSec : Int)
deriving DecidableEq, Repr

/-- The UTC offset in seconds reported by `Zone()` in this model. -/
def Location.offsetSec : Location → Int
  | .utc => 0
  | .fixedZone _ o => o
  | .iana _ o => o

/-- Model of Go `time.Time`: wall-clock components plus a location.
Go stores an absolute instant and derives components through the location;
here components are stored and the absolute instant is derived
(`GoTime.absSec`), which is observably equivalent for normalized
component values, the only ones the parser constructs. -/
structure GoTime where
  year : Int
  month : Int
  day : Int
  hour : Int
  minute : Int
  second : Int
  nanos : Int
  loc : Location
deriving DecidableEq, Repr

/-- Days from civil date (proleptic Gregorian), days since 1970-01-01.
Standard era-based algorithm. -/
def daysFromCivil (y m d : Int) : Int :=
  let y' := if m ≤ 2 then y - 1 else y
  let era := Int.fdiv y' 400
  let yoe := y' - era * 400
  let doy := (153 * (m + (if m > 2 then -3 else 9)) + 2) / 5 + d - 1
  let doe := yoe * 365 + yoe / 4 - yoe / 100 + doy
  era * 146097 + doe - 719468

/-- Civil date From days since 1970-01-01; inverse of `daysFromCivil`. -/
def civilFromDays (z0 : Int) : Int × Int × Int :=
  let z := z0 + 719468
  let era := Int.fdiv z 146097
  let doe := z - era * 146097
  let yoe := (doe - doe / 1460 + doe / 36524 - doe / 146096) / 365
  let y := yoe + era * 400
  let doy := doe - (365 * yoe + yoe / 4 - yoe / 100)
  let mp := (5 * doy + 2) / 153
  let d := doy - (153 * mp + 2) / 5 + 1
  let m := mp + (if mp < 10 then 3 else -9)
  (if m ≤ 2 then y + 1 else y, m, d)

/-- Absolute instant (seconds since the Unix epoch) of a `GoTime`. -/
def GoTime.absSec (t : GoTime) : Int :=
  daysFromCivil t.year t.month t.day * 86400 +
    t.hour * 3600 + t.minute * 60 + t.second - t.loc.offsetSec

/-- The zero `time.Time{}`: January 1, year 1, 00:00:00 UTC. -/
def goTimeZero : GoTime := ⟨1, 1, 1, 0, 0, 0, 0, .utc⟩

/-- Go `Time.IsZero`: the instant is the zero instant (Go compares the
stored instant, irrespective of location). -/
def GoTime.isZero (t : GoTime) : Bool :=
  t.absSec == goTimeZero.absSec && t.nanos == 0

/-- Go `Time.In(loc)`: same instant, components re-derived in `loc`. -/
def GoTime.inLoc (t : GoTime) (l : Location) : GoTime :=
  let localSec := t.absSec + l.offsetSec
  let days := Int.fdiv localSec 86400
  let rem := localSec - days * 86400
  let (y, m, d) := civilFromDays days
  ⟨y, m, d, rem / 3600, (rem % 3600) / 60, rem % 60, t.nanos, l⟩

/-- Go `time.Date(y, m, d, h, min, s, ns, loc)` as used by the relabel
branch of `adjustTimeWithTimezone`.  Go normalizes out-of-range
components; the parser only ever calls it with components read off an
existing `time.Time`, which are already normalized, so the model is the
plain record constructor. -/
def goDate (y m d h mi s ns : Int) (loc : Location) : GoTime :=
  ⟨y, m, d, h, mi, s, ns, loc⟩

/-! ## `parseTime` (`exifData_parser.go`, `timeFormats`)

The parser tries, in order, the four layouts of the `timeFormats` table:
`"2006:01:02 15:04:05"`, `"2006:01:02 15:04:05-0700"`,
`"2006:01:02 15:04:05.000Z"` (literal `Z`), `"2006:01:02 15:04:05Z07:00"`.
Each layout is modelled by the exact character shape it accepts, with
Go's component range validation.  Notes on Go `time.Parse` semantics kept
by the model: a numeric offset suffix always yields a location that is
not pointer-equal to `time.UTC` (Go returns either the local zone or a
`FixedZone`, modelled uniformly as `Location.fixedZone`), while an
explicit ISO-8601 `Z` yields exactly `time.UTC`. -/

/-- Read exactly two decimal digits. -/
def rd2 : List Char → Option (Nat × List Char)
  | a :: b :: rest =>
    match digitVal a, digitVal b with
    | some x, some y => some (x * 10 + y, rest)
    | _, _ => none
  | _ => none

/-- Read exactly four decimal digits. -/
def rd4 : List Char → Option (Nat × List Char)
  | a :: b :: c :: d :: rest =>
    match digitVal a, digitVal b, digitVal c, digitVal d with
    | some w, some x, some y, some z => some (w * 1000 + x * 100 + y * 10 + z, rest)
    | _, _, _, _ => none
  | _ => none

/-- Consume one expected literal character. -/
def lit (ch : Char) : List Char → Option (List Char)
  | c :: rest => if c = ch then some rest else none
  | [] => none

/-- The shared `"2006:01:02 15:04:05"` core of all four layouts. -/
structure CoreDT where
  y : Nat
  mo : Nat
  d : Nat
  h : Nat
  mi : Nat
  s : Nat
deriving DecidableEq, Repr

/-- Parse the shared date-time core, returning the remaining input. -/
def parseCore (cs : List Char) : Option (CoreDT × List Char) := do
  let (y, cs) ← rd4 cs
  let cs ← lit ':' cs
  let (mo, cs) ← rd2 cs
  let cs ← lit ':' cs
  let (d, cs) ← rd2 cs
  let cs ← lit ' ' cs
  let (h, cs) ← rd2 cs
  let cs ← lit ':' cs
  let (mi, cs) ← rd2 cs
  let cs ← lit ':' cs
  let (s, cs) ← rd2 cs
  pure (⟨y, mo, d, h, mi, s⟩, cs)

/-- Gregorian leap year, as Go `time` computes it. -/
def isLeap (y : Int) : Bool := y % 4 == 0 && (y % 100 != 0 || y % 400 == 0)

/-- Number of days in a month. -/
def daysIn (y m : Int) : Int :=
  if m = 2 then (if isLeap y then 29 else 28)
  else if m = 4 ∨ m = 6 ∨ m = 9 ∨ m = 11 then 30
  else 31

/-- Go `time.Parse` component range validation. -/
def validCore (c : CoreDT) : Bool :=
  1 ≤ c.mo && c.mo ≤ 12 && 1 ≤ c.d && (c.d : Int) ≤ daysIn (c.y : Int) (c.mo : Int) &&
    c.h ≤ 23 && c.mi ≤ 59 && c.s ≤ 59

/-- Build a `GoTime` from a validated core. -/
def coreToTime (c : CoreDT) (ns : Int) (loc : Location) : GoTime :=
  ⟨(c.y : Int), (c.mo : Int), (c.d : Int), (c.h : Int), (c.mi : Int), (c.s : Int), ns, loc⟩

/-- Layout `"2006:01:02 15:04:05"`: no zone; Go yields the time in UTC. -/
def parseFmt1 (cs : List Char) : Option GoTime :=
  match parseCore cs with
  | some (c, []) => if validCore c then some (coreToTime c 0 .utc) else none
  | _ => none

/-- Layout `"2006:01:02 15:04:05-0700"`: numeric zone suffix; the
resulting location is never pointer-equal to `time.UTC`. -/
def parseFmt2 (cs : List Char) : Option GoTime :=
  match parseCore cs with
  | some (c, sign :: rest) =>
    if sign = '+' ∨ sign = '-' then
      match rd2 rest with
      | some (hh, rest₂) =>
        match rd2 rest₂ with
        | some (mm, []) =>
          if validCore c && hh ≤ 23 && mm ≤ 59 then
            let off : Int := (if sign = '-' then -1 else 1) * ((hh : Int) * 3600 + (mm : Int) * 60)
            some (coreToTime c 0 (.fixedZone "" off))
          else none
        | _ => none
      | none => none
    else none
  | _ => none

/-- Layout `"2006:01:02 15:04:05.000Z"`: exactly three fractional digits
then a literal `Z` character (a literal in this layout, not a zone
directive); Go yields the time in UTC. -/
def parseFmt3 (cs : List Char) : Option GoTime :=
  match parseCore cs with
  | some (c, '.' :: rest) =>
    match rest with
    | a :: b :: c₃ :: 'Z' :: [] =>
      match digitVal a, digitVal b, digitVal c₃ with
      | some x, some y, some z =>
        if validCore c then
          some (coreToTime c (((x * 100 + y * 10 + z) : Int) * 1000000) .utc)
        else none
      | _, _, _ => none
    | _ => none
  | _ => none

/-- Layout `"2006:01:02 15:04:05Z07:00"` (ISO-8601 zone): either a single
`Z`, which Go maps to exactly `time.UTC`, or `±hh:mm`, which yields a
location that is not pointer-equal to `time.UTC`. -/
def parseFmt4 (cs : List Char) : Option GoTime :=
  match parseCore cs with
  | some (c, ['Z']) => if validCore c then some (coreToTime c 0 .utc) else none
  | some (c, sign :: rest) =>
    if sign = '+' ∨ sign = '-' then
      match rd2 rest with
      | some (hh, ':' :: rest₂) =>
        match rd2 rest₂ with
        | some (mm, []) =>
          if validCore c && hh ≤ 23 && mm ≤ 59 then
            let off : Int := (if sign = '-' then -1 else 1) * ((hh : Int) * 3600 + (mm : Int) * 60)
            some (coreToTime c 0 (.fixedZone "" off))
          else none
        | _ => none
      | _ => none
    else none
  | _ => none

/-- Function `parseTime` from `exifData_parser.go`: try the four `timeFormats`
layouts in order, first success wins; Go's `(time.Time, error)` return is
modelled as `Option GoTime`. -/
def parseTime (s : String) : Option GoTime :=
  match parseFmt1 s.data with
  | some t => some t
  | none =>
    match parseFmt2 s.data with
    | some t => some t
    | none =>
      match parseFmt3 s.data with
      | some t => some t
      | none => parseFmt4 s.data

/-! ## `ImageData` (`image_data.go`) as a field-indexed record

The Go struct is consumed through reflection (`parseWithReflection` walks
`reflect.Value` fields by index), so the model represents it as a function
from a field enumeration to a value sum type.  Constructors are listed in
struct declaration order, which is the order the reflection loop visits. -/

/-- The fields of `ImageData`, in declaration order. -/
inductive FieldId where
  | GPSLatitude
  | GPSLongitude
  | GPSAltitude
  | GPSTimeZone
  | GPSTimestamp
  | GPSTimestampLocal
  | GPSProcessingMethod
  | GPSStatus
  | GPSSatellites
  | GPSHPositioningError
  | GPSSpeed
  | GPSTrack
  | GPSImgDirection
  | GPSDestLatitude
  | GPSDestLongitude
  | GPSDestBearing
  | GPSDestDistance
  | CameraMake
  | CameraModel
  | CameraExposure
  | ISOSpeed
  | ShutterSpeed
  | Software
  | DateTime
  | DateTimeOriginal
  | DateTimeDigitized
  | TimeOffset
  | SubSecOriginal
  | HasTimeOffset
  | LensMake
  | LensModel
  | LensFocalLength
  | LensAperture
  | LensFocalLength35mm
  | LensMaxAperture
  | LensMinAperture
  | LensMaxFocalLength
  | ImageWidth
  | ImageHeight
  | ImageOrientation
  | ColorSpace
  | Compression
  | XResolution
  | YResolution
  | ResolutionUnit
  | Artist
  | Copyright
  | Description
  | WhiteBalance
  | Flash
  | MeteringMode
  | ExposureProgram
  | SceneCaptureType
  | SubjectDistance
  | DigitalZoomRatio
deriving DecidableEq

/-- All fields, in struct declaration order (the reflection loop's order). -/
def allFields : List FieldId :=
  [.GPSLatitude, .GPSLongitude, .GPSAltitude, .GPSTimeZone, .GPSTimestamp,
   .GPSTimestampLocal, .GPSProcessingMethod, .GPSStatus, .GPSSatellites,
   .GPSHPositioningError, .GPSSpeed, .GPSTrack, .GPSImgDirection,
   .GPSDestLatitude, .GPSDestLongitude, .GPSDestBearing, .GPSDestDistance,
   .CameraMake, .CameraModel, .CameraExposure, .ISOSpeed, .ShutterSpeed,
   .Software, .DateTime, .DateTimeOriginal, .DateTimeDigitized, .TimeOffset,
   .SubSecOriginal, .HasTimeOffset, .LensMake, .LensModel, .LensFocalLength,
   .LensAperture, .LensFocalLength35mm, .LensMaxAperture, .LensMinAperture,
   .LensMaxFocalLength, .ImageWidth, .ImageHeight, .ImageOrientation,
   .ColorSpace, .Compression, .XResolution, .YResolution, .ResolutionUnit,
   .Artist, .Copyright, .Description, .WhiteBalance, .Flash, .MeteringMode,
   .ExposureProgram, .SceneCaptureType, .SubjectDistance, .DigitalZoomRatio]

/-- The Go name of each struct field (used by `isSpecialField`). -/
def fieldName : FieldId → String
  | .GPSLatitude => "GPSLatitude"
  | .GPSLongitude => "GPSLongitude"
  | .GPSAltitude => "GPSAltitude"
  | .GPSTimeZone => "GPSTimeZone"
  | .GPSTimestamp => "GPSTimestamp"
  | .GPSTimestampLocal => "GPSTimestampLocal"
  | .GPSProcessingMethod => "GPSProcessingMethod"
  | .GPSStatus => "GPSStatus"
  | .GPSSatellites => "GPSSatellites"
  | .GPSHPositioningError => "GPSHPositioningError"
  | .GPSSpeed => "GPSSpeed"
  | .GPSTrack => "GPSTrack"
  | .GPSImgDirection => "GPSImgDirection"
  | .GPSDestLatitude => "GPSDestLatitude"
  | .GPSDestLongitude => "GPSDestLongitude"
  | .GPSDestBearing => "GPSDestBearing"
  | .GPSDestDistance => "GPSDestDistance"
  | .CameraMake => "CameraMake"
  | .CameraModel => "CameraModel"
  | .CameraExposure => "CameraExposure"
  | .ISOSpeed => "ISOSpeed"
  | .ShutterSpeed => "ShutterSpeed"
  | .Software => "Software"
  | .DateTime => "DateTime"
  | .DateTimeOriginal => "DateTimeOriginal"
  | .DateTimeDigitized => "DateTimeDigitized"
  | .TimeOffset => "TimeOffset"
  | .SubSecOriginal => "SubSecOriginal"
  | .HasTimeOffset => "HasTimeOffset"
  | .LensMake => "LensMake"
  | .LensModel => "LensModel"
  | .LensFocalLength => "LensFocalLength"
  | .LensAperture => "LensAperture"
  | .LensFocalLength35mm => "LensFocalLength35mm"
  | .LensMaxAperture => "LensMaxAperture"
  | .LensMinAperture => "LensMinAperture"
  | .LensMaxFocalLength => "LensMaxFocalLength"
  | .ImageWidth => "ImageWidth"
  | .ImageHeight => "ImageHeight"
  | .ImageOrientation => "ImageOrientation"
  | .ColorSpace => "ColorSpace"
  | .Compression => "Compression"
  | .XResolution => "XResolution"
  | .YResolution => "YResolution"
  | .ResolutionUnit => "ResolutionUnit"
  | .Artist => "Artist"
  | .Copyright => "Copyright"
  | .Description => "Description"
  | .WhiteBalance => "WhiteBalance"
  | .Flash => "Flash"
  | .MeteringMode => "MeteringMode"
  | .ExposureProgram => "ExposureProgram"
  | .SceneCaptureType => "SceneCaptureType"
  | .SubjectDistance => "SubjectDistance"
  | .DigitalZoomRatio => "DigitalZoomRatio"

/-- The semantic (reflect) kind of each field. -/
inductive Kind where
  | str
  | int
  | float
  | time
  | rat
  | bool
deriving DecidableEq

/-- Kind of each `ImageData` field, from the struct declaration. -/
def fieldKind : FieldId → Kind
  | .GPSLatitude => .float
  | .GPSLongitude => .float
  | .GPSAltitude => .float
  | .GPSTimeZone => .str
  | .GPSTimestamp => .time
  | .GPSTimestampLocal => .time
  | .GPSProcessingMethod => .str
  | .GPSStatus => .str
  | .GPSSatellites => .str
  | .GPSHPositioningError => .float
  | .GPSSpeed => .float
  | .GPSTrack => .float
  | .GPSImgDirection => .float
  | .GPSDestLatitude => .float
  | .GPSDestLongitude => .float
  | .GPSDestBearing => .float
  | .GPSDestDistance => .float
  | .CameraMake => .str
  | .CameraModel => .str
  | .CameraExposure => .str
  | .ISOSpeed => .int
  | .ShutterSpeed => .str
  | .Software => .str
  | .DateTime => .time
  | .DateTimeOriginal => .time
  | .DateTimeDigitized => .time
  | .TimeOffset => .str
  | .SubSecOriginal => .str
  | .HasTimeOffset => .bool
  | .LensMake => .str
  | .LensModel => .str
  | .LensFocalLength => .str
  | .LensAperture => .str
  | .LensFocalLength35mm => .str
  | .LensMaxAperture => .str
  | .LensMinAperture => .str
  | .LensMaxFocalLength => .str
  | .ImageWidth => .int
  | .ImageHeight => .int
  | .ImageOrientation => .int
  | .ColorSpace => .str
  | .Compression => .str
  | .XResolution => .rat
  | .YResolution => .rat
  | .ResolutionUnit => .str
  | .Artist => .str
  | .Copyright => .str
  | .Description => .str
  | .WhiteBalance => .str
  | .Flash => .str
  | .MeteringMode => .str
  | .ExposureProgram => .str
  | .SceneCaptureType => .str
  | .SubjectDistance => .float
  | .DigitalZoomRatio => .float

/-- The `exif:"..."` tag values of each field, as written in
`image_data.go` (one comma-joined value per `exif` tag; `[]` for fields
with no `exif` tag).  This is what `getExifTags` returns for the field:
the `go-mods/tags` parse of the struct tag, filtered to key `exif`. -/
def fieldTagValues : FieldId → List String
  | .GPSLatitude => ["GPSLatitude"]
  | .GPSLongitude => ["GPSLongitude"]
  | .GPSAltitude => ["GPSAltitude"]
  | .GPSTimeZone => []
  | .GPSTimestamp => ["GPSDateStamp,GPSTimeStamp"]
  | .GPSTimestampLocal => []
  | .GPSProcessingMethod => ["GPSProcessingMethod"]
  | .GPSStatus => ["GPSStatus"]
  | .GPSSatellites => ["GPSSatellites"]
  | .GPSHPositioningError => ["GPSHPositioningError"]
  | .GPSSpeed => ["GPSSpeed"]
  | .GPSTrack => ["GPSTrack"]
  | .GPSImgDirection => ["GPSImgDirection"]
  | .GPSDestLatitude => ["GPSDestLatitude"]
  | .GPSDestLongitude => ["GPSDestLongitude"]
  | .GPSDestBearing => ["GPSDestBearing"]
  | .GPSDestDistance => ["GPSDestDistance"]
  | .CameraMake => ["Make,CameraMake"]
  | .CameraModel => ["Model,CameraModel"]
  | .CameraExposure => ["ExposureTime,Exposure"]
  | .ISOSpeed => ["ISOSpeedRatings,ISO"]
  | .ShutterSpeed => ["ShutterSpeedValue"]
  | .Software => ["Software"]
  | .DateTime => ["DateTime,CreateDate"]
  | .DateTimeOriginal => ["DateTimeOriginal,OriginalDateTime"]
  | .DateTimeDigitized => ["DateTimeDigitized,DigitizedDateTime"]
  | .TimeOffset => ["OffsetTime,OffsetTimeOriginal,OffsetTimeDigitized"]
  | .SubSecOriginal => ["SubSecTimeOriginal,SubSecTime"]
  | .HasTimeOffset => []
  | .LensMake => ["LensMake"]
  | .LensModel => ["LensModel,Lens"]
  | .LensFocalLength => ["FocalLength"]
  | .LensAperture => ["FNumber,ApertureValue"]
  | .LensFocalLength35mm => ["FocalLengthIn35mmFilm"]
  | .LensMaxAperture => ["MaxApertureValue"]
  | .LensMinAperture => ["MinApertureValue"]
  | .LensMaxFocalLength => ["MaxFocalLength"]
  | .ImageWidth => ["ImageWidth,PixelXDimension,ExifImageWidth,SourceImageWidth"]
  | .ImageHeight => ["ImageHeight,PixelYDimension,ExifImageHeight,SourceImageHeight"]
  | .ImageOrientation => ["Orientation"]
  | .ColorSpace => ["ColorSpace"]
  | .Compression => ["Compression"]
  | .XResolution => ["XResolution"]
  | .YResolution => ["YResolution"]
  | .ResolutionUnit => ["ResolutionUnit"]
  | .Artist => ["Artist,Creator"]
  | .Copyright => ["Copyright,CopyrightNotice"]
  | .Description => ["ImageDescription,Description"]
  | .WhiteBalance => ["WhiteBalance"]
  | .Flash => ["Flash,FlashFired"]
  | .MeteringMode => ["MeteringMode"]
  | .ExposureProgram => ["ExposureProgram"]
  | .SceneCaptureType => ["SceneCaptureType"]
  | .SubjectDistance => ["SubjectDistance"]
  | .DigitalZoomRatio => ["DigitalZoomRatio"]

/-- Values stored in `ImageData` fields. -/
inductive FieldVal where
  | str (s : String)
  | int (n : Int)
  | float (x : GoFloat)
  | time (t : GoTime)
  | rat (r : Rational)
  | bool (b : Bool)
deriving DecidableEq

/-- The Go zero value of each kind. -/
def zeroVal : Kind → FieldVal
  | .str => .str ""
  | .int => .int 0
  | .float => .float (.val 0)
  | .time => .time goTimeZero
  | .rat => .rat ⟨0, 0⟩
  | .bool => .bool false

/-- The `ImageData` struct, as a field-indexed record. -/
def ImageData : Type := FieldId → FieldVal

/-- The zero record `ImageData{}`: every field at its zero value. -/
def zeroImageData : ImageData := fun i => zeroVal (fieldKind i)

/-- Typed read of a string field (total, with junk default; the parser
only reads fields of the right kind). -/
def ImageData.getStr (d : ImageData) (i : FieldId) : String :=
  match d i with
  | .str s => s
  | _ => ""

/-- Typed read of a time field. -/
def ImageData.getTime (d : ImageData) (i : FieldId) : GoTime :=
  match d i with
  | .time t => t
  | _ => goTimeZero

/-- Typed read of a float field. -/
def ImageData.getFloat (d : ImageData) (i : FieldId) : GoFloat :=
  match d i with
  | .float x => x
  | _ => .val 0

/-! ## Metadata map and `buildMetadataMap` (`exifData_parser.go`) -/

/-- The metadata map (Go `map[string]string`); `none` means key absent. -/
def Metadata : Type := String → Option String

/-- The empty map. -/
def emptyMetadata : Metadata := fun _ => none

/-- Map insertion (later insertion overwrites). -/
def insertMeta (m : Metadata) (k v : String) : Metadata :=
  Function.update m k (some v)

/-- A flat EXIF entry, as exposed by
`exif.GetFlatExifDataUniversalSearch` (collaborator):
only the three fields the map builder consumes. -/
structure ExifEntry where
  ifdPath : String
  tagName : String
  formattedFirst : String

/-- Constant `exif.ThumbnailFqIfdPath` from the go-exif collaborator. -/
def thumbnailFqIfdPath : String := "IFD1"

/-- One iteration of the `buildMetadataMap` loop: split the formatted
value on the NUL byte, skip empty tag names, skip thumbnail-directory
entries, insert the leading segment when non-empty. -/
def buildStep (m : Metadata) (e : ExifEntry) : Metadata :=
  let s := goSplit (Char.ofNat 0) e.formattedFirst
  if e.tagName = "" ∨ s = [] then m
  else if e.ifdPath = thumbnailFqIfdPath then m
  else
    match s with
    | v :: _ => if v ≠ "" then insertMeta m e.tagName v else m
    | [] => m

/-- Function `buildMetadataMap` from `exifData_parser.go`, given the entry list
produced by the collaborator extraction layer. -/
def buildMetadataMap (entries : List ExifEntry) : Metadata :=
  entries.foldl buildStep emptyMetadata

/-! ## `getValueFromMetadata` and `setFieldValue` -/

/-- Inner loop of `getValueFromMetadata`: first name present in the map
with a non-empty value. -/
def lookupNames (md : Metadata) : List String → Option String
  | [] => none
  | n :: rest =>
    match md n with
    | some value => if value ≠ "" then some value else lookupNames md rest
    | none => lookupNames md rest

/-- Function `getValueFromMetadata` from `exifData_parser.go`: for each `exif` tag
in order, split its value on `","` and return the first name whose map
entry exists and is non-empty. -/
def getValueFromMetadata (md : Metadata) : List String → Option String
  | [] => none
  | t :: rest =>
    match lookupNames md (goSplit ',' t) with
    | some v => some v
    | none => getValueFromMetadata md rest

/-- Function `setFieldValue` from `exifData_parser.go`: type-directed coercion.
`none` models both a returned coercion error (int/float/time/rational)
and the bool case, which Go's switch does not handle (no assignment, nil
error); in both cases the field is left untouched. -/
def setFieldValue (k : Kind) (value : String) : Option FieldVal :=
  match k with
  | .str => some (.str value)
  | .int => (goParseInt value).map .int
  | .float => (goParseFloat value).map .float
  | .time => (parseTime value).map .time
  | .rat => (NewRational value).map .rat
  | .bool => none

/-! ## The reflection loop of `parseWithReflection` -/

/-- List-of-characters test used to model `strings.HasPrefix`. -/
def startsWithChars : List Char → List Char → Bool
  | _, [] => true
  | [], _ :: _ => false
  | c :: cs, p :: ps => c = p && startsWithChars cs ps

/-- Function `isSpecialField` from `exifData_parser.go`:
`strings.HasPrefix(fieldName, "GPS")`. -/
def isSpecialField (nm : String) : Bool :=
  startsWithChars nm.data ("GPS".data)

/-- One iteration of the reflection loop: skip GPS-prefixed fields, skip
fields with no `exif` tags, else look up the first matching candidate and
coerce it; a coercion failure (or absence) leaves the field untouched. -/
def runField (md : Metadata) (d : ImageData) (i : FieldId) : ImageData :=
  if isSpecialField (fieldName i) then d
  else if fieldTagValues i = [] then d
  else
    match getValueFromMetadata md (fieldTagValues i) with
    | some v =>
      match setFieldValue (fieldKind i) v with
      | some val => Function.update d i val
      | none => d
    | none => d

/-- The generic reflection-driven pass over all struct fields, in
declaration order, starting from a given record. -/
def reflectionLoop (md : Metadata) (d : ImageData) : ImageData :=
  allFields.foldl (runField md) d

/-! ## GPS extraction (`extractGPSInfo` and helpers) -/

/-- The result of `ifd.GpsInfo()` (go-exif collaborator), as consumed by
`extractGPSInfo`: decimal latitude/longitude, integer altitude, UTC
timestamp. -/
structure GpsInfo where
  latitude : GoFloat
  longitude : GoFloat
  altitude : Int
  timestamp : GoTime

/-- External collaborators of the parser: the tzf timezone finder
(`nil`-able global) and `time.LoadLocation`. -/
structure Collaborators where
  tzFinder : Option (GoFloat → GoFloat → String)
  loadLocation : String → Option Location

/-- Go `fmt.Sprintf("%02d", n)` for `0 ≤ n < 100`: zero-padded to two
digits. -/
def pad2 (n : Int) : List Char :=
  if n < 10 then '0' :: natToStr n.toNat else natToStr n.toNat

/-- The timezone adjustment of one capture-time field — the block that
`adjustTimeWithTimezone` repeats verbatim for `DateTimeOriginal`,
`DateTimeDigitized` and `DateTime`: skip zero values; convert
(`Time.In`) when the location is not pointer-equal to `time.UTC`,
otherwise rebuild the same wall-clock components in the new location. -/
def adjustTimeField (loc : Location) (i : FieldId) (d : ImageData) : ImageData :=
  let t := d.getTime i
  if ¬t.isZero then
    if t.loc ≠ .utc then Function.update d i (.time (t.inLoc loc))
    else
      Function.update d i
        (.time (goDate t.year t.month t.day t.hour t.minute t.second t.nanos loc))
  else d

/-- The offset-formatting statements of `adjustTimeWithTimezone`: format
the location's current UTC offset as `"+HHMM"`/`"-HHMM"` into
`TimeOffset` and set `HasTimeOffset = true`.  The offset Go computes from
`time.Now().UTC().In(loc)` is the location's current offset; in the
fixed-offset location model this is `Location.offsetSec`. -/
def setTimeOffsetFields (loc : Location) (d : ImageData) : ImageData :=
  let offset := loc.offsetSec
  let sign : String := if offset < 0 then "-" else "+"
  let offabs : Int := if offset < 0 then -offset else offset
  let hours := offabs / 3600
  let minutes := (offabs % 3600) / 60
  Function.update
    (Function.update d .TimeOffset
      (.str (sign ++ String.mk (pad2 hours) ++ String.mk (pad2 minutes))))
    .HasTimeOffset (.bool true)

/-- Function `adjustTimeWithTimezone` from `exifData_parser.go`: skip when no
timezone name, load the location (logging and aborting on failure), set
the offset fields, then adjust `DateTimeOriginal`, `DateTimeDigitized`
and `DateTime`, in source order. -/
def adjustTimeWithTimezone (C : Collaborators) (d : ImageData) : ImageData :=
  if d.getStr .GPSTimeZone = "" then d
  else
    match C.loadLocation (d.getStr .GPSTimeZone) with
    | none => d
    | some loc =>
      adjustTimeField loc .DateTime
        (adjustTimeField loc .DateTimeDigitized
          (adjustTimeField loc .DateTimeOriginal (setTimeOffsetFields loc d)))

/-- Function `processGPSCoordinates` from `exifData_parser.go`: NaN validation,
coordinate fields, timezone lookup (longitude first, as in the source),
and the call into `adjustTimeWithTimezone`.  The `error` result is
modelled as `Option String`. -/
def processGPSCoordinates (C : Collaborators) (d : ImageData) (g : GpsInfo) :
    ImageData × Option String :=
  if g.latitude.isNaN || g.longitude.isNaN then (d, some "invalid GPS coordinates")
  else
    let d : ImageData := Function.update d .GPSLatitude (.float g.latitude)
    let d : ImageData := Function.update d .GPSLongitude (.float g.longitude)
    match C.tzFinder with
    | none => (d, none)
    | some find =>
      let timezoneName := find (d.getFloat .GPSLongitude) (d.getFloat .GPSLatitude)
      if timezoneName ≠ "" then
        let d : ImageData := Function.update d .GPSTimeZone (.str timezoneName)
        (adjustTimeWithTimezone C d, none)
      else (d, none)

/-- Function `processLocalTime` from `exifData_parser.go`. -/
def processLocalTime (C : Collaborators) (d : ImageData) : ImageData :=
  if d.getStr .GPSTimeZone = "" || (d.getTime .GPSTimestamp).isZero then d
  else
    match C.loadLocation (d.getStr .GPSTimeZone) with
    | none => d
    | some loc =>
      Function.update d .GPSTimestampLocal (.time ((d.getTime .GPSTimestamp).inLoc loc))

/-- The auxiliary GPS scalar fields of `processAdditionalGPSMetadata`,
in source order, with their exact map keys. -/
inductive AuxKind where
  | str
  | float
deriving DecidableEq

/-- One `(key, field, kind)` row of `processAdditionalGPSMetadata`. -/
structure AuxField where
  key : String
  fid : FieldId
  kind : AuxKind

/-- The eleven direct lookups of `processAdditionalGPSMetadata`, in
source order. -/
def auxFields : List AuxField :=
  [⟨"GPSProcessingMethod", .GPSProcessingMethod, .str⟩,
   ⟨"GPSStatus", .GPSStatus, .str⟩,
   ⟨"GPSSatellites", .GPSSatellites, .str⟩,
   ⟨"GPSHPositioningError", .GPSHPositioningError, .float⟩,
   ⟨"GPSSpeed", .GPSSpeed, .float⟩,
   ⟨"GPSTrack", .GPSTrack, .float⟩,
   ⟨"GPSImgDirection", .GPSImgDirection, .float⟩,
   ⟨"GPSDestLatitude", .GPSDestLatitude, .float⟩,
   ⟨"GPSDestLongitude", .GPSDestLongitude, .float⟩,
   ⟨"GPSDestBearing", .GPSDestBearing, .float⟩,
   ⟨"GPSDestDistance", .GPSDestDistance, .float⟩]

/-- One `if v, ok := metadata[key]; ok { ... }` block of
`processAdditionalGPSMetadata`.  For float fields Go discards the
`strconv.ParseFloat` error and assigns the returned value, which is `0`
on a syntax error (overflow clamping to infinity is not modelled). -/
def auxStep (md : Metadata) (d : ImageData) (a : AuxField) : ImageData :=
  match md a.key with
  | some v =>
    match a.kind with
    | .str => Function.update d a.fid (.str v)
    | .float => Function.update d a.fid (.float ((goParseFloat v).getD (.val 0)))
  | none => d

/-- Function `processAdditionalGPSMetadata` from `exifData_parser.go`. -/
def processAdditionalGPSMetadata (md : Metadata) (d : ImageData) : ImageData :=
  auxFields.foldl (auxStep md) d

/-- Function `extractGPSInfo` from `exifData_parser.go`.  `gpsIfd = none` covers
both failure to locate the GPS sub-directory and failure of
`ifd.GpsInfo()`, which return before touching the record. -/
def extractGPSInfo (C : Collaborators) (md : Metadata) (gpsIfd : Option GpsInfo)
    (d : ImageData) : ImageData × Option String :=
  match gpsIfd with
  | none => (d, some "no GPS info found")
  | some g =>
    match processGPSCoordinates C d g with
    | (d₁, some e) => (d₁, some e)
    | (d₁, none) =>
      let d₂ :=
        if g.altitude ≠ 0 then Function.update d₁ .GPSAltitude (.float (.val (g.altitude : ℚ)))
        else d₁
      let d₃ :=
        if ¬g.timestamp.isZero then
          processLocalTime C (Function.update d₂ .GPSTimestamp (.time g.timestamp))
        else d₂
      (processAdditionalGPSMetadata md d₃, none)

/-- Function `parseWithReflection` from `exifData_parser.go`: the generic
reflection pass over a zero record, then the GPS pass; a GPS extraction
error is only logged, never returned. -/
def parseWithReflection (C : Collaborators) (md : Metadata) (gpsIfd : Option GpsInfo) :
    ImageData :=
  (extractGPSInfo C md gpsIfd (reflectionLoop md zeroImageData)).1

/-- Function `Parse` from `exifData_parser.go`: fatal errors only from the
metadata-map extraction and the IFD index build (both collaborator
results, modelled as `Option`). -/
def Parse (C : Collaborators) (entriesRes : Option (List ExifEntry))
    (collectRes : Option (Option GpsInfo)) : Except String ImageData :=
  match entriesRes with
  | none => .error "failed to extract EXIF data"
  | some entries =>
    match collectRes with
    | none => .error "failed to build IFD index"
    | some gpsIfd => .ok (parseWithReflection C (buildMetadataMap entries) gpsIfd)

/-! ## Pointwise characterization of the reflection loop -/

/-- The value one loop iteration leaves in its own field. -/
def runFieldVal (md : Metadata) (i : FieldId) (old : FieldVal) : FieldVal :=
  if isSpecialField (fieldName i) then old
  else if fieldTagValues i = [] then old
  else
    match getValueFromMetadata md (fieldTagValues i) with
    | some v =>
      match setFieldValue (fieldKind i) v with
      | some val => val
      | none => old
    | none => old

/-- The full set of fields the GPS pass can write. -/
def gpsWriteSet : List FieldId :=
  [.GPSLatitude, .GPSLongitude, .GPSAltitude, .GPSTimeZone, .GPSTimestamp,
   .GPSTimestampLocal, .GPSProcessingMethod, .GPSStatus, .GPSSatellites,
   .GPSHPositioningError, .GPSSpeed, .GPSTrack, .GPSImgDirection,
   .GPSDestLatitude, .GPSDestLongitude, .GPSDestBearing, .GPSDestDistance,
   .TimeOffset, .HasTimeOffset, .DateTime, .DateTimeOriginal, .DateTimeDigitized]

/-! ## Claim C10: `TimeOffset` without `HasTimeOffset` -/

/-- Concrete input for C10: an `OffsetTime` tag and no GPS directory. -/
def c10entries : List ExifEntry := [⟨"IFD/Exif", "OffsetTime", "+0200"⟩]

/-- Concrete input for the C2 counterexample: NaN latitude, non-zero
altitude, and a `GPSStatus` metadata entry for the auxiliary step. -/
def c2entries : List ExifEntry := [⟨"IFD/GPSInfo", "GPSStatus", "A"⟩]

/-- The location the C3 context derives ("Europe/Rome", UTC+2 at the
moment the offset is computed). -/
def romeLoc : Location := .iana "Europe/Rome" 7200

/-- A `LoadLocation` collaborator knowing only "Europe/Rome". -/
def loadRome : String → Option Location :=
  fun n => if n = "Europe/Rome" then some romeLoc else none

/-- A record with a derived timezone and a zone-less `DateTimeOriginal`
(as parsed from `"2023:06:15 10:30:00"`). -/
def c3data : ImageData :=
  Function.update (Function.update zeroImageData .GPSTimeZone (.str "Europe/Rome"))
    .DateTimeOriginal (.time ⟨2023, 6, 15, 10, 30, 0, 0, .utc⟩)

/-- A record like `c3data` but whose `DateTimeOriginal` came from the
input `"2023:06:15 10:00:00Z"` — a value carrying an explicit UTC zone
marker. -/
def c3zdata : ImageData :=
  Function.update (Function.update zeroImageData .GPSTimeZone (.str "Europe/Rome"))
    .DateTimeOriginal (.time ⟨2023, 6, 15, 10, 0, 0, 0, .utc⟩)

/-- Entries for the C1 counterexample: an `OffsetTime` tag. -/
def c1entries : List ExifEntry := [⟨"IFD/Exif", "OffsetTime", "+0100"⟩]

/-- GPS info with valid coordinates for the C1 counterexample. -/
def c1gps : GpsInfo := ⟨.val 42, .val 12, 0, goTimeZero⟩

/-- Collaborators whose timezone finder always answers "Europe/Rome". -/
def c1collab : Collaborators := ⟨some (fun _ _ => "Europe/Rome"), loadRome⟩

/-! ## Theorems -/

example : NewRational "3/4" = some ⟨3, 4⟩ := by decide

example : NewRational "-7/100" = some ⟨-7, 100⟩ := by decide

example : NewRational "01/2" = some ⟨1, 2⟩ := by decide

example : NewRational "1/2/3" = none := by decide

example : NewRational "12" = none := by decide

example : NewRational "a/2" = none := by decide

example : Rational.String ⟨1, 2⟩ = "1/2" := by decide

example : Rational.String ⟨-7, 100⟩ = "-7/100" := by decide

/-! ## Decimal printing / parsing round-trip lemmas -/

theorem digitVal_digitChar {n : Nat} (h : n < 10) : digitVal (digitChar n) = some n := by
  interval_cases n <;> rfl

theorem natToStrAux_irrel :
    ∀ fuel₁ fuel₂ n, n < fuel₁ → n < fuel₂ → natToStrAux fuel₁ n = natToStrAux fuel₂ n := by
  intro fuel₁
  induction fuel₁ with
  | zero => omega
  | succ f ih =>
    intro fuel₂ n h₁ h₂
    match fuel₂, h₂ with
    | g + 1, h₂ =>
      show natToStrAux (f + 1) n = natToStrAux (g + 1) n
      unfold natToStrAux
      by_cases hn : n < 10
      · simp [hn]
      · simp only [if_neg hn]
        have hdiv : n / 10 < n := Nat.div_lt_self (by omega) (by omega)
        rw [ih g (n / 10) (by omega) (by omega)]

theorem parseNatAux_append (l₁ l₂ : List Char) (acc : Nat) :
    parseNatAux (l₁ ++ l₂) acc =
      match parseNatAux l₁ acc with
      | some m => parseNatAux l₂ m
      | none => none := by
  induction l₁ generalizing acc with
  | nil => rfl
  | cons c cs ih =>
    simp only [List.cons_append, parseNatAux]
    cases hd : digitVal c with
    | none => rfl
    | some d => exact ih (acc * 10 + d)

theorem parseNatAux_natToStrAux :
    ∀ fuel n acc, n < fuel →
      parseNatAux (natToStrAux fuel n) acc =
        some (acc * 10 ^ (natToStrAux fuel n).length + n) := by
  intro fuel
  induction fuel with
  | zero => omega
  | succ f ih =>
    intro n acc h
    by_cases hn : n < 10
    · show parseNatAux (natToStrAux (f + 1) n) acc = _
      unfold natToStrAux
      simp only [if_pos hn]
      show parseNatAux [digitChar n] acc = _
      unfold parseNatAux
      rw [digitVal_digitChar hn]
      simp [parseNatAux]
    · have hdiv : n / 10 < n := Nat.div_lt_self (by omega) (by omega)
      show parseNatAux (natToStrAux (f + 1) n) acc = _
      unfold natToStrAux
      simp only [if_neg hn]
      rw [parseNatAux_append]
      rw [ih (n / 10) acc (by omega)]
      show parseNatAux [digitChar (n % 10)] _ = _
      unfold parseNatAux
      rw [digitVal_digitChar (Nat.mod_lt n (by omega))]
      simp only [parseNatAux]
      congr 1
      have := Nat.div_add_mod n 10
      simp only [List.length_append, List.length_cons, List.length_nil]
      ring_nf
      omega

theorem natToStrAux_digits :
    ∀ fuel n, n < fuel → ∀ c ∈ natToStrAux fuel n, (digitVal c).isSome = true := by
  intro fuel
  induction fuel with
  | zero => omega
  | succ f ih =>
    intro n h c hc
    by_cases hn : n < 10
    · unfold natToStrAux at hc
      simp only [if_pos hn, List.mem_singleton] at hc
      subst hc
      rw [digitVal_digitChar hn]
      rfl
    · have hdiv : n / 10 < n := Nat.div_lt_self (by omega) (by omega)
      unfold natToStrAux at hc
      simp only [if_neg hn, List.mem_append, List.mem_singleton] at hc
      rcases hc with hc | hc
      · exact ih (n / 10) (by omega) c hc
      · subst hc
        rw [digitVal_digitChar (Nat.mod_lt n (by omega))]
        rfl

theorem natToStrAux_ne_nil (fuel n : Nat) (h : n < fuel) : natToStrAux fuel n ≠ [] := by
  match fuel, h with
  | f + 1, h =>
    unfold natToStrAux
    by_cases hn : n < 10 <;> simp [hn]

theorem natToStr_digits (n : Nat) : ∀ c ∈ natToStr n, (digitVal c).isSome = true :=
  natToStrAux_digits (n + 1) n (by omega)

theorem natToStr_ne_nil (n : Nat) : natToStr n ≠ [] :=
  natToStrAux_ne_nil (n + 1) n (by omega)

theorem parseNatAux_natToStr (n : Nat) : parseNatAux (natToStr n) 0 = some n := by
  have := parseNatAux_natToStrAux (n + 1) n 0 (by omega)
  simpa using this

/-- A character that is a decimal digit is none of the separator and sign
characters that `goParseInt` and `goSplit '/'` treat specially. -/
theorem digit_not_special {c : Char} (h : (digitVal c).isSome = true) :
    c ≠ '/' ∧ c ≠ '-' ∧ c ≠ '+' := by
  unfold digitVal at h
  split at h
  · rename_i hrange
    refine ⟨?_, ?_, ?_⟩ <;> rintro rfl <;> revert hrange <;> decide
  · simp at h

theorem goParseIntDigits_natToStr_false (n : Nat) (hn : (n : Int) ≤ 2 ^ 63 - 1) :
    goParseIntDigits false (natToStr n) = some (n : Int) := by
  unfold goParseIntDigits
  rw [if_neg (natToStr_ne_nil n), parseNatAux_natToStr]
  show (if ((n : Int)) < -(2 ^ 63) ∨ (2 ^ 63 - 1 : Int) < (n : Int) then none
        else some ((n : Int))) = _
  have hc : ¬(((n : Int)) < -(2 ^ 63) ∨ (2 ^ 63 - 1 : Int) < (n : Int)) := by
    push_neg
    exact ⟨by omega, hn⟩
  rw [if_neg hc]

theorem goParseIntDigits_natToStr_true (n : Nat) (hn : -(2 ^ 63) ≤ -(n : Int)) :
    goParseIntDigits true (natToStr n) = some (-(n : Int)) := by
  unfold goParseIntDigits
  rw [if_neg (natToStr_ne_nil n), parseNatAux_natToStr]
  show (if (-(n : Int)) < -(2 ^ 63) ∨ (2 ^ 63 - 1 : Int) < -(n : Int) then none
        else some (-(n : Int))) = _
  have hc : ¬((-(n : Int)) < -(2 ^ 63) ∨ (2 ^ 63 - 1 : Int) < -(n : Int)) := by
    push_neg
    exact ⟨hn, by omega⟩
  rw [if_neg hc]

theorem goParseInt_natToStr (n : Nat) (hn : (n : Int) ≤ 2 ^ 63 - 1) :
    goParseInt (String.mk (natToStr n)) = some (n : Int) := by
  obtain ⟨c, cs, hcs⟩ : ∃ c cs, natToStr n = c :: cs := by
    cases h : natToStr n with
    | nil => exact absurd h (natToStr_ne_nil n)
    | cons c cs => exact ⟨c, cs, rfl⟩
  have hdig : (digitVal c).isSome = true :=
    natToStr_digits n c (by rw [hcs]; exact List.mem_cons_self c cs)
  obtain ⟨-, hminus, hplus⟩ := digit_not_special hdig
  have : goParseInt (String.mk (natToStr n)) = goParseIntDigits false (c :: cs) := by
    unfold goParseInt
    rw [show (String.mk (natToStr n)).data = c :: cs from by rw [← hcs]]
    simp only [if_neg hminus, if_neg hplus]
  rw [this, ← hcs]
  exact goParseIntDigits_natToStr_false n hn

theorem goParseInt_intToStr (i : Int) (h₁ : -(2 ^ 63) ≤ i) (h₂ : i ≤ 2 ^ 63 - 1) :
    goParseInt (intToStr i) = some i := by
  by_cases hneg : i < 0
  · have hstr : intToStr i = String.mk ('-' :: natToStr (-i).toNat) := by
      unfold intToStr; rw [if_pos hneg]
    rw [hstr]
    have hred : goParseInt (String.mk ('-' :: natToStr (-i).toNat)) =
        goParseIntDigits true (natToStr (-i).toNat) := by
      unfold goParseInt
      simp
    rw [hred, goParseIntDigits_natToStr_true (-i).toNat (by omega)]
    congr 1
    omega
  · have hstr : intToStr i = String.mk (natToStr i.toNat) := by
      unfold intToStr; rw [if_neg hneg]
    rw [hstr, goParseInt_natToStr i.toNat (by omega)]
    congr 1
    omega

/-! ## `goSplit` lemmas -/

theorem splitCharAux_no_sep (sep : Char) :
    ∀ l acc, sep ∉ l → splitCharAux sep l acc = [acc.reverse ++ l] := by
  intro l
  induction l with
  | nil => intro acc _; simp [splitCharAux]
  | cons c cs ih =>
    intro acc h
    have hc : c ≠ sep := fun hc => h (hc ▸ List.mem_cons_self c cs)
    have hcs : sep ∉ cs := fun hm => h (List.mem_cons_of_mem c hm)
    unfold splitCharAux
    rw [if_neg hc, ih (c :: acc) hcs]
    simp

theorem splitCharAux_sep_mid (sep : Char) :
    ∀ l₁ l₂ acc, sep ∉ l₁ →
      splitCharAux sep (l₁ ++ sep :: l₂) acc =
        (acc.reverse ++ l₁) :: splitCharAux sep l₂ [] := by
  intro l₁
  induction l₁ with
  | nil =>
    intro l₂ acc _
    show splitCharAux sep (sep :: l₂) acc = _
    rw [splitCharAux, if_pos rfl]
    simp
  | cons c cs ih =>
    intro l₂ acc h
    have hc : c ≠ sep := fun hc => h (hc ▸ List.mem_cons_self c cs)
    have hcs : sep ∉ cs := fun hm => h (List.mem_cons_of_mem c hm)
    show splitCharAux sep (c :: (cs ++ sep :: l₂)) acc = _
    rw [splitCharAux, if_neg hc, ih l₂ (c :: acc) hcs]
    simp

theorem goSplit_two (sep : Char) (l₁ l₂ : List Char) (h₁ : sep ∉ l₁) (h₂ : sep ∉ l₂) :
    goSplit sep (String.mk (l₁ ++ sep :: l₂)) = [String.mk l₁, String.mk l₂] := by
  unfold goSplit
  show (splitCharAux sep (l₁ ++ sep :: l₂) []).map String.mk = _
  rw [splitCharAux_sep_mid sep l₁ l₂ [] h₁, splitCharAux_no_sep sep l₂ [] h₂]
  simp

/-- The decimal rendering of an integer contains no `'/'` character. -/
theorem intToStr_no_slash (i : Int) : '/' ∉ (intToStr i).data := by
  by_cases hneg : i < 0
  · have hstr : intToStr i = String.mk ('-' :: natToStr (-i).toNat) := by
      unfold intToStr; rw [if_pos hneg]
    rw [hstr]
    intro hmem
    rcases List.mem_cons.mp hmem with h | h
    · exact absurd h (by decide)
    · exact (digit_not_special (natToStr_digits _ _ h)).1 rfl
  · have hstr : intToStr i = String.mk (natToStr i.toNat) := by
      unfold intToStr; rw [if_neg hneg]
    rw [hstr]
    intro hmem
    exact (digit_not_special (natToStr_digits _ _ hmem)).1 rfl

/-! ## Claims C4 and C8 -/

/-- Claim C4, counterexample.  The claim says: for every string of the form
`"N/D"` with integer parts accepted by `NewRational`, re-formatting the
resulting `Rational` reproduces the original input exactly.  The input
`"01/2"` is accepted (Go `strconv.Atoi` accepts leading zeros), but
re-formatting prints the canonical form `"1/2"`, not `"01/2"`. -/
theorem C4_counterexample :
    (NewRational "01/2").map Rational.String = some "1/2" ∧ ("1/2" : String) ≠ "01/2" := by
  constructor
  · rfl
  · decide

/-- Claim C4, amended.  The round-trip holds exactly for inputs whose two
segments are the canonical decimal representations (as Go `%d` prints
them: no leading zeros, no `+` sign) of integers in the signed 64-bit
range: parsing such a string with `NewRational` and re-formatting with
`Rational.String` reproduces it. -/
theorem C4_roundtrip (n d : Int)
    (hn₁ : -(2 ^ 63) ≤ n) (hn₂ : n ≤ 2 ^ 63 - 1)
    (hd₁ : -(2 ^ 63) ≤ d) (hd₂ : d ≤ 2 ^ 63 - 1) :
    (NewRational (intToStr n ++ "/" ++ intToStr d)).map Rational.String =
      some (intToStr n ++ "/" ++ intToStr d) := by
  have hdata : (intToStr n ++ "/" ++ intToStr d).data =
      (intToStr n).data ++ '/' :: (intToStr d).data := by
    simp [String.data_append]
  have hsplit : goSplit '/' (intToStr n ++ "/" ++ intToStr d) =
      [String.mk (intToStr n).data, String.mk (intToStr d).data] := by
    unfold goSplit
    rw [hdata, splitCharAux_sep_mid '/' _ _ [] (intToStr_no_slash n),
      splitCharAux_no_sep '/' _ [] (intToStr_no_slash d)]
    simp
  have e₁ : String.mk (intToStr n).data = intToStr n := by cases intToStr n; rfl
  have e₂ : String.mk (intToStr d).data = intToStr d := by cases intToStr d; rfl
  rw [e₁, e₂] at hsplit
  unfold NewRational
  rw [hsplit]
  show (match goParseInt (intToStr n) with
        | none => none
        | some numerator =>
          match goParseInt (intToStr d) with
          | none => none
          | some denominator => some (Rational.mk numerator denominator)).map Rational.String = _
  rw [goParseInt_intToStr n hn₁ hn₂, goParseInt_intToStr d hd₁ hd₂]
  rfl

/-- Witness for `C4_roundtrip` at the concrete input `"1/2"`. -/
theorem C4_roundtrip_witness :
    (NewRational (intToStr 1 ++ "/" ++ intToStr 2)).map Rational.String =
      some (intToStr 1 ++ "/" ++ intToStr 2) :=
  C4_roundtrip 1 2 (by norm_num) (by norm_num) (by norm_num) (by norm_num)

/-- Claim C8.  `NewRational` succeeds exactly when the input splits on `"/"`
into exactly two segments, each accepted by Go integer parsing
(`strconv.Atoi`): fewer or more than two segments, or a segment that is
not an integer, fail; two integer segments succeed. -/
theorem C8_newRational_success_iff (s : String) :
    (NewRational s).isSome = true ↔
      ∃ a b, goSplit '/' s = [a, b] ∧
        (goParseInt a).isSome = true ∧ (goParseInt b).isSome = true := by
  unfold NewRational
  rcases hsp : goSplit '/' s with _ | ⟨a, _ | ⟨b, _ | ⟨c, t⟩⟩⟩
  · simp [hsp]
  · simp [hsp]
  · cases hpa : goParseInt a with
    | none => simp [hsp, hpa]
    | some x =>
      cases hpb : goParseInt b with
      | none => simp [hsp, hpa, hpb]
      | some y =>
        simp only [hsp, hpa, hpb]
        constructor
        · intro _
          exact ⟨a, b, rfl, by simp [hpa], by simp [hpb]⟩
        · intro _
          simp
  · simp [hsp]

example : goParseFloat "5" = some (.val 5) := by
  norm_num [goParseFloat, takeDigits, digitsToNat,
    show digitVal '5' = some 5 from by decide,
    show ¬(('5' : Char) = '-') from by decide,
    show ¬(('5' : Char) = '+') from by decide]

example : goParseFloat "-2.5" = some (.val (-5 / 2)) := by
  norm_num [goParseFloat, takeDigits, digitsToNat,
    show digitVal '5' = some 5 from by decide,
    show digitVal '2' = some 2 from by decide,
    show digitVal '.' = none from by decide,
    show ¬(('2' : Char) = '-') from by decide,
    show ¬(('2' : Char) = '+') from by decide]

example : goParseFloat "abc" = none := by decide

example : goParseFloat "" = none := by decide

example : (GoTime.mk 2023 6 15 10 0 0 0 .utc).inLoc (.iana "Europe/Rome" 7200) =
    ⟨2023, 6, 15, 12, 0, 0, 0, .iana "Europe/Rome" 7200⟩ := by decide

example : (GoTime.mk 2023 12 31 23 30 0 0 .utc).inLoc (.iana "Europe/Rome" 3600) =
    ⟨2024, 1, 1, 0, 30, 0, 0, .iana "Europe/Rome" 3600⟩ := by decide

example : (GoTime.mk 2024 3 1 1 0 0 0 .utc).inLoc (.fixedZone "" (-7200)) =
    ⟨2024, 2, 29, 23, 0, 0, 0, .fixedZone "" (-7200)⟩ := by decide

example : goTimeZero.isZero = true := by decide

example : (GoTime.mk 2023 6 15 10 0 0 0 .utc).isZero = false := by decide

example : parseTime "2023:06:15 10:00:00" = some ⟨2023, 6, 15, 10, 0, 0, 0, .utc⟩ := by decide

example : parseTime "2023:06:15 10:00:00+0200" =
    some ⟨2023, 6, 15, 10, 0, 0, 0, .fixedZone "" 7200⟩ := by decide

example : parseTime "2023:06:15 10:00:00.123Z" =
    some ⟨2023, 6, 15, 10, 0, 0, 123000000, .utc⟩ := by decide

example : parseTime "2023:06:15 10:00:00Z" = some ⟨2023, 6, 15, 10, 0, 0, 0, .utc⟩ := by decide

example : parseTime "2023:06:15 10:00:00-05:30" =
    some ⟨2023, 6, 15, 10, 0, 0, 0, .fixedZone "" (-19800)⟩ := by decide

example : parseTime "2023:02:30 10:00:00" = none := by decide

example : parseTime "not a time" = none := by decide

theorem runField_self (md : Metadata) (d : ImageData) (i : FieldId) :
    (runField md d i) i = runFieldVal md i (d i) := by
  unfold runField runFieldVal
  by_cases h1 : isSpecialField (fieldName i) = true
  · rw [if_pos h1, if_pos h1]
  · rw [if_neg h1, if_neg h1]
    by_cases h2 : fieldTagValues i = []
    · rw [if_pos h2, if_pos h2]
    · rw [if_neg h2, if_neg h2]
      cases hv : getValueFromMetadata md (fieldTagValues i) with
      | none => rfl
      | some v =>
        show (match setFieldValue (fieldKind i) v with
              | some val => Function.update d i val
              | none => d) i =
            (match setFieldValue (fieldKind i) v with
              | some val => val
              | none => d i)
        cases hs : setFieldValue (fieldKind i) v with
        | none => rfl
        | some val => exact Function.update_same i val d

theorem runField_other (md : Metadata) (d : ImageData) (i j : FieldId) (h : i ≠ j) :
    (runField md d j) i = d i := by
  unfold runField
  by_cases h1 : isSpecialField (fieldName j) = true
  · rw [if_pos h1]
  · rw [if_neg h1]
    by_cases h2 : fieldTagValues j = []
    · rw [if_pos h2]
    · rw [if_neg h2]
      cases hv : getValueFromMetadata md (fieldTagValues j) with
      | none => rfl
      | some v =>
        show (match setFieldValue (fieldKind j) v with
              | some val => Function.update d j val
              | none => d) i = d i
        cases hs : setFieldValue (fieldKind j) v with
        | none => rfl
        | some val => exact Function.update_noteq h val d

theorem foldl_runField_not_mem (md : Metadata) :
    ∀ (l : List FieldId) (d : ImageData) (i : FieldId), i ∉ l →
      (l.foldl (runField md) d) i = d i := by
  intro l
  induction l with
  | nil => intro d i _; rfl
  | cons j rest ih =>
    intro d i h
    have hij : i ≠ j := fun hc => h (hc ▸ List.mem_cons_self j rest)
    have hrest : i ∉ rest := fun hm => h (List.mem_cons_of_mem j hm)
    show (rest.foldl (runField md) (runField md d j)) i = d i
    rw [ih (runField md d j) i hrest, runField_other md d i j hij]

theorem foldl_runField_mem (md : Metadata) :
    ∀ (l : List FieldId) (d : ImageData) (i : FieldId), i ∈ l → l.Nodup →
      (l.foldl (runField md) d) i = runFieldVal md i (d i) := by
  intro l
  induction l with
  | nil => intro d i h _; cases h
  | cons j rest ih =>
    intro d i h hnd
    show (rest.foldl (runField md) (runField md d j)) i = _
    by_cases hij : i = j
    · subst hij
      have hrest : i ∉ rest := (List.nodup_cons.mp hnd).1
      rw [foldl_runField_not_mem md rest _ i hrest, runField_self]
    · have hrest : i ∈ rest := by
        rcases List.mem_cons.mp h with hc | hm
        · exact absurd hc hij
        · exact hm
      rw [ih (runField md d j) i hrest (List.nodup_cons.mp hnd).2,
        runField_other md d i j hij]

theorem allFields_nodup : allFields.Nodup := by decide

theorem mem_allFields (i : FieldId) : i ∈ allFields := by cases i <;> decide

/-- The reflection loop acts pointwise: each field's final value depends
only on that field's own schema row and starting value. -/
theorem reflectionLoop_apply (md : Metadata) (d : ImageData) (i : FieldId) :
    (reflectionLoop md d) i = runFieldVal md i (d i) :=
  foldl_runField_mem md allFields d i (mem_allFields i) allFields_nodup

/-! ## Frame lemmas for the GPS pass -/

theorem adjustTimeField_other (loc : Location) (j : FieldId) (d : ImageData) (i : FieldId)
    (h : i ≠ j) : (adjustTimeField loc j d) i = d i := by
  unfold adjustTimeField
  split
  · split
    · exact Function.update_noteq h _ d
    · exact Function.update_noteq h _ d
  · rfl

theorem adjustTimeWithTimezone_frame (C : Collaborators) (d : ImageData) (i : FieldId)
    (h₁ : i ≠ .TimeOffset) (h₂ : i ≠ .HasTimeOffset) (h₃ : i ≠ .DateTimeOriginal)
    (h₄ : i ≠ .DateTimeDigitized) (h₅ : i ≠ .DateTime) :
    (adjustTimeWithTimezone C d) i = d i := by
  simp only [adjustTimeWithTimezone]
  split
  · rfl
  · cases hll : C.loadLocation (d.getStr .GPSTimeZone) with
    | none => rfl
    | some loc =>
      show (adjustTimeField loc .DateTime
            (adjustTimeField loc .DateTimeDigitized
              (adjustTimeField loc .DateTimeOriginal (setTimeOffsetFields loc d)))) i = d i
      rw [adjustTimeField_other _ _ _ _ h₅, adjustTimeField_other _ _ _ _ h₄,
        adjustTimeField_other _ _ _ _ h₃]
      simp only [setTimeOffsetFields]
      rw [Function.update_noteq h₂, Function.update_noteq h₁]

theorem processLocalTime_frame (C : Collaborators) (d : ImageData) (i : FieldId)
    (h : i ≠ .GPSTimestampLocal) : (processLocalTime C d) i = d i := by
  simp only [processLocalTime]
  split
  · rfl
  · cases hll : C.loadLocation (d.getStr .GPSTimeZone) with
    | none => rfl
    | some loc =>
      show (Function.update d .GPSTimestampLocal _) i = d i
      exact Function.update_noteq h _ d

theorem auxStep_frame (md : Metadata) (d : ImageData) (a : AuxField) (i : FieldId)
    (h : i ≠ a.fid) : (auxStep md d a) i = d i := by
  unfold auxStep
  cases hmk : md a.key with
  | none => rfl
  | some v =>
    cases a.kind with
    | str => exact Function.update_noteq h _ d
    | float => exact Function.update_noteq h _ d

theorem aux_foldl_frame (md : Metadata) :
    ∀ (l : List AuxField) (d : ImageData) (i : FieldId),
      (∀ a ∈ l, i ≠ a.fid) → (l.foldl (auxStep md) d) i = d i := by
  intro l
  induction l with
  | nil => intro d i _; rfl
  | cons a rest ih =>
    intro d i h
    show (rest.foldl (auxStep md) (auxStep md d a)) i = d i
    rw [ih (auxStep md d a) i (fun b hb => h b (List.mem_cons_of_mem a hb)),
      auxStep_frame md d a i (h a (List.mem_cons_self a rest))]

theorem processGPSCoordinates_frame (C : Collaborators) (d : ImageData) (g : GpsInfo)
    (i : FieldId)
    (hLat : i ≠ .GPSLatitude) (hLon : i ≠ .GPSLongitude) (hTz : i ≠ .GPSTimeZone)
    (h₁ : i ≠ .TimeOffset) (h₂ : i ≠ .HasTimeOffset) (h₃ : i ≠ .DateTimeOriginal)
    (h₄ : i ≠ .DateTimeDigitized) (h₅ : i ≠ .DateTime) :
    (processGPSCoordinates C d g).1 i = d i := by
  simp only [processGPSCoordinates]
  split
  · rfl
  · split
    · show (Function.update (Function.update d _ _) _ _) i = d i
      rw [Function.update_noteq hLon, Function.update_noteq hLat]
    · split
      · show (adjustTimeWithTimezone C (Function.update (Function.update (Function.update d _ _) _ _) _ _)) i = d i
        rw [adjustTimeWithTimezone_frame _ _ _ h₁ h₂ h₃ h₄ h₅,
          Function.update_noteq hTz, Function.update_noteq hLon, Function.update_noteq hLat]
      · show (Function.update (Function.update d _ _) _ _) i = d i
        rw [Function.update_noteq hLon, Function.update_noteq hLat]

theorem extractGPSInfo_frame (C : Collaborators) (md : Metadata) (gpsIfd : Option GpsInfo)
    (d : ImageData) (i : FieldId) (h : i ∉ gpsWriteSet) :
    (extractGPSInfo C md gpsIfd d).1 i = d i := by
  simp only [gpsWriteSet, List.mem_cons, List.mem_singleton, List.not_mem_nil] at h
  push_neg at h
  obtain ⟨hLat, hLon, hAlt, hTz, hTs, hTsl, hPm, hSt, hSat, hHp, hSp, hTr, hDir,
    hDla, hDlo, hDbe, hDdi, hTo, hHto, hDt, hDto, hDtd, -⟩ := h
  have hAux : ∀ a ∈ auxFields, i ≠ a.fid := by
    intro a ha
    fin_cases ha
    exacts [hPm, hSt, hSat, hHp, hSp, hTr, hDir, hDla, hDlo, hDbe, hDdi]
  cases gpsIfd with
  | none => rfl
  | some g =>
    simp only [extractGPSInfo]
    cases hpc : processGPSCoordinates C d g with
    | mk d₁ err =>
      have hd₁ : d₁ i = d i := by
        have := processGPSCoordinates_frame C d g i hLat hLon hTz hTo hHto hDto hDtd hDt
        rw [hpc] at this
        exact this
      cases err with
      | some e => exact hd₁
      | none =>
        show (processAdditionalGPSMetadata md _) i = d i
        unfold processAdditionalGPSMetadata
        rw [aux_foldl_frame md auxFields _ i hAux]
        split
        · rw [processLocalTime_frame C _ i hTsl, Function.update_noteq hTs]
          split
          · rw [Function.update_noteq hAlt]
            exact hd₁
          · exact hd₁
        · split
          · rw [Function.update_noteq hAlt]
            exact hd₁
          · exact hd₁

/-! ## Claim C9: thumbnail suppression -/

theorem buildStep_thumbnail (m : Metadata) (e : ExifEntry)
    (h : e.ifdPath = thumbnailFqIfdPath) : buildStep m e = m := by
  simp [buildStep, h]

/-- Claim C9.  Entries located in the thumbnail sub-directory (`IFD1`) never
contribute to the metadata map: the map built from any entry list equals
the map built from the list with all thumbnail-directory entries removed,
even when their tag names duplicate main-image entries. -/
theorem C9_thumbnail_suppression (entries : List ExifEntry) :
    buildMetadataMap entries =
      buildMetadataMap (entries.filter (fun e => e.ifdPath ≠ thumbnailFqIfdPath)) := by
  unfold buildMetadataMap
  suffices h : ∀ (l : List ExifEntry) (m : Metadata),
      l.foldl buildStep m = (l.filter (fun e => e.ifdPath ≠ thumbnailFqIfdPath)).foldl buildStep m from
    h entries emptyMetadata
  intro l
  induction l with
  | nil => intro m; rfl
  | cons e rest ih =>
    intro m
    by_cases he : e.ifdPath = thumbnailFqIfdPath
    · show rest.foldl buildStep (buildStep m e) = _
      rw [buildStep_thumbnail m e he]
      have hf : (e :: rest).filter (fun e => e.ifdPath ≠ thumbnailFqIfdPath) =
          rest.filter (fun e => e.ifdPath ≠ thumbnailFqIfdPath) := by
        simp [List.filter_cons, he]
      rw [hf]
      exact ih m
    · show rest.foldl buildStep (buildStep m e) = _
      have hf : (e :: rest).filter (fun e => e.ifdPath ≠ thumbnailFqIfdPath) =
          e :: rest.filter (fun e => e.ifdPath ≠ thumbnailFqIfdPath) := by
        simp [List.filter_cons, he]
      rw [hf]
      show _ = (rest.filter (fun e => e.ifdPath ≠ thumbnailFqIfdPath)).foldl buildStep (buildStep m e)
      exact ih (buildStep m e)

example :
    (buildMetadataMap [⟨"IFD/Exif", "Make", "main"⟩, ⟨"IFD1", "Make", "thumb"⟩]) "Make" =
      some "main" := by decide

/-! ## Claim C5: alias order -/

theorem lookupNames_first (md : Metadata) :
    ∀ (pre : List String) (n : String) (post : List String) (v : String),
      (∀ m ∈ pre, md m = none ∨ md m = some "") →
      md n = some v → v ≠ "" →
      lookupNames md (pre ++ n :: post) = some v := by
  intro pre
  induction pre with
  | nil =>
    intro n post v _ hn hv
    show lookupNames md (n :: post) = some v
    unfold lookupNames
    rw [hn]
    simp [hv]
  | cons m₀ rest ih =>
    intro n post v hpre hn hv
    show lookupNames md (m₀ :: (rest ++ n :: post)) = some v
    unfold lookupNames
    rcases hpre m₀ (List.mem_cons_self m₀ rest) with h₀ | h₀ <;> rw [h₀]
    · exact ih n post v (fun m hm => hpre m (List.mem_cons_of_mem m₀ hm)) hn hv
    · simp only [ne_eq, not_true_eq_false, if_false]
      exact ih n post v (fun m hm => hpre m (List.mem_cons_of_mem m₀ hm)) hn hv

/-- Claim C5.  Candidate tag names are tried strictly in declared order and
the first present, non-empty value wins: for a non-GPS field `i` with a
single `exif` tag whose comma-split name list is `pre ++ n :: post`, if
every name in `pre` is absent or empty in the map and `n` maps to a
non-empty `v`, then `getValueFromMetadata` returns `v` (names in `post`
are never consulted — the result does not depend on them), and for an
integer field whose winning value decodes to `k` the decoded field equals
`k`. -/
theorem C5_alias_order (md : Metadata) (i : FieldId) (t : String) (pre post : List String)
    (n v : String) (k : Int)
    (htags : fieldTagValues i = [t])
    (hsplit : goSplit ',' t = pre ++ n :: post)
    (hspecial : isSpecialField (fieldName i) = false)
    (hkind : fieldKind i = .int)
    (hpre : ∀ m ∈ pre, md m = none ∨ md m = some "")
    (hn : md n = some v) (hne : v ≠ "")
    (hparse : goParseInt v = some k) :
    getValueFromMetadata md (fieldTagValues i) = some v ∧
      (reflectionLoop md zeroImageData) i = .int k := by
  have hlook : getValueFromMetadata md (fieldTagValues i) = some v := by
    rw [htags]
    unfold getValueFromMetadata
    rw [hsplit, lookupNames_first md pre n post v hpre hn hne]
  refine ⟨hlook, ?_⟩
  rw [reflectionLoop_apply]
  unfold runFieldVal
  rw [if_neg (by simp [hspecial]), if_neg (by simp [htags]), hlook, hkind]
  show (match (goParseInt v).map FieldVal.int with
        | some val => val
        | none => zeroImageData i) = _
  rw [hparse]
  rfl

/-- Witness for `C5_alias_order`: field `ISOSpeed` with candidates
`["ISOSpeedRatings", "ISO"]` and a map containing only `ISO = "5"`
decodes to the integer 5. -/
theorem C5_alias_order_witness :
    getValueFromMetadata (fun s => if s = "ISO" then some "5" else none)
        (fieldTagValues .ISOSpeed) = some "5" ∧
      (reflectionLoop (fun s => if s = "ISO" then some "5" else none) zeroImageData)
        FieldId.ISOSpeed = .int 5 :=
  C5_alias_order (fun s => if s = "ISO" then some "5" else none) .ISOSpeed
    "ISOSpeedRatings,ISO" ["ISOSpeedRatings"] [] "ISO" "5" 5
    rfl (by decide) (by decide) rfl
    (by intro m hm; fin_cases hm; left; rfl)
    (by decide) (by decide) (by decide)

/-! ## Claim C6: coercion failures are field-local and never fatal -/

/-- Claim C6.  A coercion failure on a field leaves that field at its zero
value; every other field's outcome is its own pointwise decode,
independent of the failing field; and the overall parse still returns a
record (never an error) whenever the metadata map and IFD index were
built. -/
theorem C6_coercion_failure_local (C : Collaborators) (entries : List ExifEntry)
    (gpsIfd : Option GpsInfo) (md : Metadata) (i : FieldId) (v : String)
    (hmd : md = buildMetadataMap entries)
    (hv : getValueFromMetadata md (fieldTagValues i) = some v)
    (hfail : setFieldValue (fieldKind i) v = none) :
    (reflectionLoop md zeroImageData) i = zeroImageData i ∧
      (∀ j, (reflectionLoop md zeroImageData) j = runFieldVal md j (zeroImageData j)) ∧
      Parse C (some entries) (some gpsIfd) =
        .ok (parseWithReflection C md gpsIfd) := by
  refine ⟨?_, fun j => reflectionLoop_apply md zeroImageData j, ?_⟩
  · rw [reflectionLoop_apply]
    unfold runFieldVal
    by_cases h1 : isSpecialField (fieldName i) = true
    · rw [if_pos h1]
    · rw [if_neg h1]
      by_cases h2 : fieldTagValues i = []
      · rw [if_pos h2]
      · rw [if_neg h2, hv]
        show (match setFieldValue (fieldKind i) v with
              | some val => val
              | none => zeroImageData i) = _
        rw [hfail]
  · rw [hmd]
    rfl

/-- Witness for `C6_coercion_failure_local`: map entry
`ISOSpeedRatings = "abc"` for the integer field `ISOSpeed`. -/
theorem C6_coercion_failure_local_witness :
    (reflectionLoop (buildMetadataMap [⟨"IFD/Exif", "ISOSpeedRatings", "abc"⟩]) zeroImageData)
        FieldId.ISOSpeed = zeroImageData FieldId.ISOSpeed ∧
      (∀ j, (reflectionLoop (buildMetadataMap [⟨"IFD/Exif", "ISOSpeedRatings", "abc"⟩])
          zeroImageData) j =
        runFieldVal (buildMetadataMap [⟨"IFD/Exif", "ISOSpeedRatings", "abc"⟩]) j
          (zeroImageData j)) ∧
      Parse ⟨none, fun _ => none⟩ (some [⟨"IFD/Exif", "ISOSpeedRatings", "abc"⟩]) (some none) =
        .ok (parseWithReflection ⟨none, fun _ => none⟩
          (buildMetadataMap [⟨"IFD/Exif", "ISOSpeedRatings", "abc"⟩]) none) :=
  C6_coercion_failure_local ⟨none, fun _ => none⟩ [⟨"IFD/Exif", "ISOSpeedRatings", "abc"⟩]
    none (buildMetadataMap [⟨"IFD/Exif", "ISOSpeedRatings", "abc"⟩]) FieldId.ISOSpeed "abc"
    rfl (by decide) (by decide)

/-- Claim C10.  A non-empty `TimeOffset` does not imply `HasTimeOffset`:
with metadata `OffsetTime = "+0200"` and no GPS sub-directory, the
generic pass fills `TimeOffset` from the `OffsetTime` alias while
`HasTimeOffset` (set only by the GPS-driven timezone adjustment) stays
false. -/
theorem C10_timeoffset_without_flag :
    (parseWithReflection ⟨none, fun _ => none⟩ (buildMetadataMap c10entries) none)
        FieldId.TimeOffset = .str "+0200" ∧
      (parseWithReflection ⟨none, fun _ => none⟩ (buildMetadataMap c10entries) none)
        FieldId.HasTimeOffset = .bool false := by decide

/-! ## Claim C2: NaN coordinates -/

theorem processGPSCoordinates_nan (C : Collaborators) (d : ImageData) (g : GpsInfo)
    (h : g.latitude.isNaN = true ∨ g.longitude.isNaN = true) :
    processGPSCoordinates C d g = (d, some "invalid GPS coordinates") := by
  unfold processGPSCoordinates
  rw [if_pos]
  rcases h with h | h <;> simp [h]

/-- Claim C2, amended.  If latitude or longitude is NaN, the coordinate
fields are left unset and no timezone derivation is attempted, and the
overall parse still succeeds — but GPS processing does **not** continue:
`extractGPSInfo` returns the error immediately, so the altitude, GPS
timestamp, local-time and auxiliary-field steps are also skipped and the
result record is exactly the generic pass's output. -/
theorem C2_nan_aborts_gps (C : Collaborators) (entries : List ExifEntry) (g : GpsInfo)
    (d : ImageData) (h : g.latitude.isNaN = true ∨ g.longitude.isNaN = true) :
    extractGPSInfo C (buildMetadataMap entries) (some g) d =
        (d, some "invalid GPS coordinates") ∧
      Parse C (some entries) (some (some g)) =
        .ok (reflectionLoop (buildMetadataMap entries) zeroImageData) := by
  have hpc := processGPSCoordinates_nan C d g h
  constructor
  · simp only [extractGPSInfo, hpc]
  · show Except.ok (parseWithReflection C (buildMetadataMap entries) (some g)) = _
    unfold parseWithReflection
    simp only [extractGPSInfo,
      processGPSCoordinates_nan C (reflectionLoop (buildMetadataMap entries) zeroImageData) g h]

/-- Witness for `C2_nan_aborts_gps` at NaN latitude. -/
theorem C2_nan_aborts_gps_witness :
    extractGPSInfo ⟨none, fun _ => none⟩ (buildMetadataMap []) (some ⟨.nan, .val 0, 100, goTimeZero⟩)
        zeroImageData = (zeroImageData, some "invalid GPS coordinates") ∧
      Parse ⟨none, fun _ => none⟩ (some []) (some (some ⟨.nan, .val 0, 100, goTimeZero⟩)) =
        .ok (reflectionLoop (buildMetadataMap []) zeroImageData) :=
  C2_nan_aborts_gps ⟨none, fun _ => none⟩ [] ⟨.nan, .val 0, 100, goTimeZero⟩ zeroImageData
    (Or.inl rfl)

/-- Claim C2, counterexample.  The claim says GPS processing *continues*
with the subsequent steps (altitude, GPS timestamp, auxiliary fields) on
NaN coordinates; with NaN latitude, altitude 100 and metadata
`GPSStatus = "A"` the claim predicts `GPSAltitude = 100` and
`GPSStatus = "A"`, but the code aborts GPS processing and leaves both at
their zero values. -/
theorem C2_counterexample :
    (parseWithReflection ⟨none, fun _ => none⟩ (buildMetadataMap c2entries)
        (some ⟨.nan, .val 0, 100, goTimeZero⟩)) FieldId.GPSAltitude = .float (.val 0) ∧
      (parseWithReflection ⟨none, fun _ => none⟩ (buildMetadataMap c2entries)
        (some ⟨.nan, .val 0, 100, goTimeZero⟩)) FieldId.GPSStatus = .str "" ∧
      FieldVal.float (.val 0) ≠ .float (.val 100) ∧ FieldVal.str "" ≠ .str "A" := by decide

/-! ## Claim C7: `HasTimeOffset` characterization -/

theorem adjustTime_hto_true (C : Collaborators) (d : ImageData) (loc : Location)
    (hne : ¬d.getStr .GPSTimeZone = "")
    (hload : C.loadLocation (d.getStr .GPSTimeZone) = some loc) :
    (adjustTimeWithTimezone C d) FieldId.HasTimeOffset = .bool true := by
  simp only [adjustTimeWithTimezone]
  rw [if_neg hne, hload]
  show (adjustTimeField loc .DateTime
        (adjustTimeField loc .DateTimeDigitized
          (adjustTimeField loc .DateTimeOriginal (setTimeOffsetFields loc d))))
      FieldId.HasTimeOffset = _
  rw [adjustTimeField_other _ _ _ _ (by decide), adjustTimeField_other _ _ _ _ (by decide),
    adjustTimeField_other _ _ _ _ (by decide)]
  rfl

theorem adjustTime_noload (C : Collaborators) (d : ImageData)
    (hload : C.loadLocation (d.getStr .GPSTimeZone) = none) :
    adjustTimeWithTimezone C d = d := by
  simp only [adjustTimeWithTimezone]
  split
  · rfl
  · rw [hload]

/-- Frame through the altitude / timestamp / local-time / auxiliary steps
of `extractGPSInfo` once coordinates were processed without error. -/
theorem extract_after_coords (C : Collaborators) (md : Metadata) (g : GpsInfo)
    (d d₁ : ImageData) (i : FieldId)
    (hpc : processGPSCoordinates C d g = (d₁, none))
    (hAlt : i ≠ .GPSAltitude) (hTs : i ≠ .GPSTimestamp) (hTsl : i ≠ .GPSTimestampLocal)
    (hAux : ∀ a ∈ auxFields, i ≠ a.fid) :
    (extractGPSInfo C md (some g) d).1 i = d₁ i := by
  simp only [extractGPSInfo, hpc]
  unfold processAdditionalGPSMetadata
  rw [aux_foldl_frame md auxFields _ i hAux]
  split
  · rw [processLocalTime_frame C _ i hTsl, Function.update_noteq hTs]
    split
    · rw [Function.update_noteq hAlt]
    · rfl
  · split
    · rw [Function.update_noteq hAlt]
    · rfl

/-- The generic pass leaves `HasTimeOffset` at `false`: the field has no
`exif` tag. -/
theorem reflectionLoop_hto (md : Metadata) :
    (reflectionLoop md zeroImageData) FieldId.HasTimeOffset = .bool false := by
  rw [reflectionLoop_apply]
  rfl

/-- Claim C7.  `HasTimeOffset` is true in the parsed record iff a timezone
was successfully derived from the GPS coordinates and an offset computed
for it: GPS info present, coordinates not NaN, the timezone finder
available and returning a non-empty name, and that name resolving to a
loadable zone. -/
theorem C7_hasTimeOffset_iff (C : Collaborators) (md : Metadata) (gpsIfd : Option GpsInfo) :
    (parseWithReflection C md gpsIfd) FieldId.HasTimeOffset = .bool true ↔
      ∃ g find, gpsIfd = some g ∧ C.tzFinder = some find ∧
        g.latitude.isNaN = false ∧ g.longitude.isNaN = false ∧
        find g.longitude g.latitude ≠ "" ∧
        (C.loadLocation (find g.longitude g.latitude)).isSome = true := by
  have hauxne : ∀ a ∈ auxFields, FieldId.HasTimeOffset ≠ a.fid := by
    intro a ha
    fin_cases ha <;> decide
  set d0 : ImageData := reflectionLoop md zeroImageData with hd0def
  have hd0 : d0 FieldId.HasTimeOffset = .bool false := reflectionLoop_hto md
  unfold parseWithReflection
  rw [← hd0def]
  cases gpsIfd with
  | none =>
    show d0 FieldId.HasTimeOffset = .bool true ↔ _
    rw [hd0]
    simp
  | some g =>
    by_cases hnan : (g.latitude.isNaN || g.longitude.isNaN) = true
    · have hpc : processGPSCoordinates C d0 g = (d0, some "invalid GPS coordinates") := by
        unfold processGPSCoordinates
        rw [if_pos hnan]
      have hLHS : (extractGPSInfo C md (some g) d0).1 FieldId.HasTimeOffset = .bool false := by
        simp only [extractGPSInfo, hpc]
        exact hd0
      rw [hLHS]
      constructor
      · intro hc
        exact absurd hc (by decide)
      · rintro ⟨g', find, hg', -, hl1, hl2, -, -⟩
        obtain rfl : g = g' := Option.some.inj hg'
        rw [hl1, hl2] at hnan
        exact absurd hnan (by decide)
    · have hnan' : ¬(g.latitude.isNaN || g.longitude.isNaN) = true := hnan
      have hl1 : g.latitude.isNaN = false := by
        cases h : g.latitude.isNaN
        · rfl
        · rw [h] at hnan'; simp at hnan'
      have hl2 : g.longitude.isNaN = false := by
        cases h : g.longitude.isNaN
        · rfl
        · rw [h] at hnan'; simp at hnan'
      cases htf : C.tzFinder with
      | none =>
        have hpc : processGPSCoordinates C d0 g =
            (Function.update (Function.update d0 .GPSLatitude (.float g.latitude))
              .GPSLongitude (.float g.longitude), none) := by
          simp only [processGPSCoordinates]
          rw [if_neg hnan', htf]
        have hLHS : (extractGPSInfo C md (some g) d0).1 FieldId.HasTimeOffset = .bool false := by
          rw [extract_after_coords C md g d0 _ _ hpc (by decide) (by decide) (by decide) hauxne,
            Function.update_noteq (by decide), Function.update_noteq (by decide)]
          exact hd0
        rw [hLHS]
        constructor
        · intro hc
          exact absurd hc (by decide)
        · rintro ⟨g', find, -, htf', -, -, -, -⟩
          exact Option.noConfusion htf'
      | some find =>
        have hgf :
            ImageData.getFloat (Function.update (Function.update d0 .GPSLatitude (.float g.latitude))
                .GPSLongitude (.float g.longitude)) .GPSLongitude = g.longitude := rfl
        have hgf2 :
            ImageData.getFloat (Function.update (Function.update d0 .GPSLatitude (.float g.latitude))
                .GPSLongitude (.float g.longitude)) .GPSLatitude = g.latitude := rfl
        by_cases hname : find g.longitude g.latitude = ""
        · have hpc : processGPSCoordinates C d0 g =
              (Function.update (Function.update d0 .GPSLatitude (.float g.latitude))
                .GPSLongitude (.float g.longitude), none) := by
            simp only [processGPSCoordinates]
            rw [if_neg hnan']
            simp only [htf]
            rw [hgf, hgf2,
              if_neg (show ¬(find g.longitude g.latitude ≠ "") from fun hcon => hcon hname)]
          have hLHS : (extractGPSInfo C md (some g) d0).1 FieldId.HasTimeOffset = .bool false := by
            rw [extract_after_coords C md g d0 _ _ hpc (by decide) (by decide) (by decide) hauxne,
              Function.update_noteq (by decide), Function.update_noteq (by decide)]
            exact hd0
          rw [hLHS]
          constructor
          · intro hc
            exact absurd hc (by decide)
          · rintro ⟨g', find', hg', htf', -, -, hne', -⟩
            obtain rfl : g = g' := Option.some.inj hg'
            obtain rfl : find = find' := Option.some.inj htf'
            exact (hne' hname).elim
        · set dTz : ImageData :=
            Function.update (Function.update (Function.update d0 .GPSLatitude (.float g.latitude))
              .GPSLongitude (.float g.longitude)) .GPSTimeZone
              (.str (find g.longitude g.latitude)) with hdTz
          have hpc : processGPSCoordinates C d0 g = (adjustTimeWithTimezone C dTz, none) := by
            simp only [processGPSCoordinates]
            rw [if_neg hnan']
            simp only [htf]
            rw [hgf, hgf2, if_pos hname, ← hdTz]
          have hgetTz : ImageData.getStr dTz .GPSTimeZone = find g.longitude g.latitude := rfl
          cases hload : C.loadLocation (find g.longitude g.latitude) with
          | none =>
            have hadj : adjustTimeWithTimezone C dTz = dTz := by
              apply adjustTime_noload
              rw [hgetTz]
              exact hload
            have hLHS : (extractGPSInfo C md (some g) d0).1 FieldId.HasTimeOffset = .bool false := by
              rw [extract_after_coords C md g d0 _ _ hpc (by decide) (by decide) (by decide) hauxne,
                hadj, hdTz, Function.update_noteq (by decide), Function.update_noteq (by decide),
                Function.update_noteq (by decide)]
              exact hd0
            rw [hLHS]
            constructor
            · intro hc
              exact absurd hc (by decide)
            · rintro ⟨g', find', hg', htf', -, -, -, hload'⟩
              obtain rfl : g = g' := Option.some.inj hg'
              obtain rfl : find = find' := Option.some.inj htf'
              rw [hload] at hload'
              exact Bool.noConfusion hload'
          | some loc =>
            have hLHS : (extractGPSInfo C md (some g) d0).1 FieldId.HasTimeOffset = .bool true := by
              rw [extract_after_coords C md g d0 _ _ hpc (by decide) (by decide) (by decide) hauxne]
              apply adjustTime_hto_true C dTz loc
              · rw [hgetTz]
                exact hname
              · rw [hgetTz]
                exact hload
            rw [hLHS]
            constructor
            · intro _
              exact ⟨g, find, rfl, rfl, hl1, hl2, hname, by rw [hload]; rfl⟩
            · intro _
              rfl

/-! ## Claim C3: timezone adjustment of capture-time fields -/

theorem setTimeOffsetFields_other (loc : Location) (d : ImageData) (i : FieldId)
    (h₁ : i ≠ .TimeOffset) (h₂ : i ≠ .HasTimeOffset) :
    (setTimeOffsetFields loc d) i = d i := by
  simp only [setTimeOffsetFields]
  rw [Function.update_noteq h₂, Function.update_noteq h₁]

theorem adjustTimeField_self (loc : Location) (i : FieldId) (dd : ImageData) :
    (adjustTimeField loc i dd) i =
      if (ImageData.getTime dd i).isZero = true then dd i
      else if (ImageData.getTime dd i).loc = .utc then
        .time (goDate (ImageData.getTime dd i).year (ImageData.getTime dd i).month
          (ImageData.getTime dd i).day (ImageData.getTime dd i).hour
          (ImageData.getTime dd i).minute (ImageData.getTime dd i).second
          (ImageData.getTime dd i).nanos loc)
      else .time ((ImageData.getTime dd i).inLoc loc) := by
  simp only [adjustTimeField]
  by_cases hz : (ImageData.getTime dd i).isZero = true
  · rw [if_neg (by simp [hz]), if_pos hz]
  · rw [if_pos (by simpa using hz), if_neg hz]
    by_cases hloc : (ImageData.getTime dd i).loc = .utc
    · rw [if_neg (by simp [hloc]), if_pos hloc]
      exact Function.update_same _ _ _
    · rw [if_pos (by simpa using hloc), if_neg hloc]
      exact Function.update_same _ _ _

/-- Claim C3, amended.  For each capture-time field that is non-zero, the
timezone adjustment relabels it (every wall-clock component from year to
sub-second unchanged, attached location replaced by the derived zone)
exactly when its stored location is pointer-equal to `time.UTC` — which
is the case both for values parsed with no zone information **and** for
values carrying an explicit ISO-8601 `Z` (UTC) marker; only values whose
parsed location is not pointer-equal to `time.UTC` (numeric offset
suffixes) are truly converted (shifted) into the derived zone. -/
theorem C3_adjust_time_fields (C : Collaborators) (d : ImageData) (loc : Location) (i : FieldId)
    (hi : i = .DateTime ∨ i = .DateTimeOriginal ∨ i = .DateTimeDigitized)
    (hne : ¬ImageData.getStr d .GPSTimeZone = "")
    (hload : C.loadLocation (ImageData.getStr d .GPSTimeZone) = some loc)
    (hnz : (ImageData.getTime d i).isZero = false) :
    (adjustTimeWithTimezone C d) i =
      (if (ImageData.getTime d i).loc = .utc then
        .time (goDate (ImageData.getTime d i).year (ImageData.getTime d i).month
          (ImageData.getTime d i).day (ImageData.getTime d i).hour
          (ImageData.getTime d i).minute (ImageData.getTime d i).second
          (ImageData.getTime d i).nanos loc)
      else .time ((ImageData.getTime d i).inLoc loc)) := by
  simp only [adjustTimeWithTimezone]
  rw [if_neg hne, hload]
  rcases hi with rfl | rfl | rfl
  · show (adjustTimeField loc .DateTime
          (adjustTimeField loc .DateTimeDigitized
            (adjustTimeField loc .DateTimeOriginal (setTimeOffsetFields loc d))))
        FieldId.DateTime = _
    rw [adjustTimeField_self]
    have hX : ImageData.getTime
        (adjustTimeField loc .DateTimeDigitized
          (adjustTimeField loc .DateTimeOriginal (setTimeOffsetFields loc d)))
        .DateTime = ImageData.getTime d .DateTime := by
      unfold ImageData.getTime
      rw [adjustTimeField_other _ _ _ _ (by decide), adjustTimeField_other _ _ _ _ (by decide),
        setTimeOffsetFields_other _ _ _ (by decide) (by decide)]
    rw [hX, hnz, if_neg (show ¬(false = true) from by decide)]
  · show (adjustTimeField loc .DateTime
          (adjustTimeField loc .DateTimeDigitized
            (adjustTimeField loc .DateTimeOriginal (setTimeOffsetFields loc d))))
        FieldId.DateTimeOriginal = _
    rw [adjustTimeField_other _ _ _ _ (by decide), adjustTimeField_other _ _ _ _ (by decide),
      adjustTimeField_self]
    have hX : ImageData.getTime (setTimeOffsetFields loc d) .DateTimeOriginal =
        ImageData.getTime d .DateTimeOriginal := by
      unfold ImageData.getTime
      rw [setTimeOffsetFields_other _ _ _ (by decide) (by decide)]
    rw [hX, hnz, if_neg (show ¬(false = true) from by decide)]
  · show (adjustTimeField loc .DateTime
          (adjustTimeField loc .DateTimeDigitized
            (adjustTimeField loc .DateTimeOriginal (setTimeOffsetFields loc d))))
        FieldId.DateTimeDigitized = _
    rw [adjustTimeField_other _ _ _ _ (by decide), adjustTimeField_self]
    have hX : ImageData.getTime
        (adjustTimeField loc .DateTimeOriginal (setTimeOffsetFields loc d))
        .DateTimeDigitized = ImageData.getTime d .DateTimeDigitized := by
      unfold ImageData.getTime
      rw [adjustTimeField_other _ _ _ _ (by decide),
        setTimeOffsetFields_other _ _ _ (by decide) (by decide)]
    rw [hX, hnz, if_neg (show ¬(false = true) from by decide)]

/-- Witness for `C3_adjust_time_fields`: the zone-less 10:30:00 capture
time is relabeled to 10:30:00 Europe/Rome — no component shifted. -/
theorem C3_adjust_time_fields_witness :
    (adjustTimeWithTimezone ⟨none, loadRome⟩ c3data) FieldId.DateTimeOriginal =
      (if (ImageData.getTime c3data FieldId.DateTimeOriginal).loc = .utc then
        .time (goDate (ImageData.getTime c3data FieldId.DateTimeOriginal).year
          (ImageData.getTime c3data FieldId.DateTimeOriginal).month
          (ImageData.getTime c3data FieldId.DateTimeOriginal).day
          (ImageData.getTime c3data FieldId.DateTimeOriginal).hour
          (ImageData.getTime c3data FieldId.DateTimeOriginal).minute
          (ImageData.getTime c3data FieldId.DateTimeOriginal).second
          (ImageData.getTime c3data FieldId.DateTimeOriginal).nanos romeLoc)
      else .time ((ImageData.getTime c3data FieldId.DateTimeOriginal).inLoc romeLoc)) :=
  C3_adjust_time_fields ⟨none, loadRome⟩ c3data romeLoc .DateTimeOriginal
    (Or.inr (Or.inl rfl)) (by decide) (by decide) (by decide)

/-- Claim C3, counterexample.  The claim says a value that already carries
explicit zone information is converted (shifted) into the derived zone.
The input `"2023:06:15 10:00:00Z"` carries an explicit ISO-8601 UTC
marker (`Z`), and a true conversion of 10:00:00 UTC into Europe/Rome
(UTC+2) is 12:00:00; but `time.Parse` maps `Z` to exactly `time.UTC`, so
the code's `Location() != time.UTC` test takes the relabel branch and
produces 10:00:00 Europe/Rome — a different instant, not the claimed
conversion. -/
theorem C3_counterexample :
    parseTime "2023:06:15 10:00:00Z" = some ⟨2023, 6, 15, 10, 0, 0, 0, .utc⟩ ∧
      (adjustTimeWithTimezone ⟨none, loadRome⟩ c3zdata) FieldId.DateTimeOriginal =
        .time ⟨2023, 6, 15, 10, 0, 0, 0, romeLoc⟩ ∧
      (GoTime.mk 2023 6 15 10 0 0 0 .utc).inLoc romeLoc =
        ⟨2023, 6, 15, 12, 0, 0, 0, romeLoc⟩ ∧
      FieldVal.time ⟨2023, 6, 15, 10, 0, 0, 0, romeLoc⟩ ≠
        .time ((GoTime.mk 2023 6 15 10 0 0 0 .utc).inLoc romeLoc) := by decide

/-! ## Claim C1: write sets of the two passes -/

/-- Claim C1, amended.  The two passes do not write disjoint field
sets.  What holds is: (1) the generic reflection pass never writes
GPS-prefixed or untagged fields; (2) the GPS pass never writes outside
`gpsWriteSet` (the GPS block plus `TimeOffset`, `HasTimeOffset`,
`DateTime`, `DateTimeOriginal`, `DateTimeDigitized`); and (3) the two
write sets overlap exactly on `TimeOffset`, `DateTime`,
`DateTimeOriginal` and `DateTimeDigitized`.  Because of this overlap the
result depends on which pass runs first; the code runs the generic pass
first, then the GPS pass. -/
theorem C1_write_sets (C : Collaborators) (md : Metadata) (gpsIfd : Option GpsInfo)
    (d : ImageData) :
    (∀ i, isSpecialField (fieldName i) = true ∨ fieldTagValues i = [] →
        (reflectionLoop md d) i = d i) ∧
      (∀ i, i ∉ gpsWriteSet → (extractGPSInfo C md gpsIfd d).1 i = d i) ∧
      (∀ i, i ∈ gpsWriteSet →
        isSpecialField (fieldName i) = false ∧ fieldTagValues i ≠ [] →
        i ∈ ([.TimeOffset, .DateTime, .DateTimeOriginal, .DateTimeDigitized] : List FieldId)) := by
  refine ⟨?_, ?_, ?_⟩
  · intro i h
    rw [reflectionLoop_apply]
    unfold runFieldVal
    rcases h with h | h
    · rw [if_pos h]
    · by_cases hs : isSpecialField (fieldName i) = true
      · rw [if_pos hs]
      · rw [if_neg hs, if_pos h]
  · intro i h
    exact extractGPSInfo_frame C md gpsIfd d i h
  · intro i
    cases i <;> decide

/-- Witness for `C1_write_sets`: the generic pass leaves the GPS-prefixed
`GPSLatitude` untouched, and the GPS pass leaves the non-GPS `CameraMake`
untouched. -/
theorem C1_write_sets_witness :
    (reflectionLoop emptyMetadata zeroImageData) FieldId.GPSLatitude =
        zeroImageData FieldId.GPSLatitude ∧
      (extractGPSInfo ⟨none, fun _ => none⟩ emptyMetadata none zeroImageData).1
        FieldId.CameraMake = zeroImageData FieldId.CameraMake :=
  ⟨(C1_write_sets ⟨none, fun _ => none⟩ emptyMetadata none zeroImageData).1
      FieldId.GPSLatitude (Or.inl (by decide)),
    (C1_write_sets ⟨none, fun _ => none⟩ emptyMetadata none zeroImageData).2.1
      FieldId.CameraMake (by decide)⟩

set_option maxRecDepth 10000 in
/-- Claim C1, counterexample.  The claim says the two passes write disjoint
field sets, so the result is the same regardless of which pass runs
first.  With metadata `OffsetTime = "+0100"` and coordinates resolving to
Europe/Rome (UTC+2), both passes write `TimeOffset`: running the generic
pass first (as the code does) ends with the GPS-derived `"+0200"`, while
running the GPS pass first ends with the metadata value `"+0100"`. -/
theorem C1_counterexample :
    (extractGPSInfo c1collab (buildMetadataMap c1entries) (some c1gps)
        (reflectionLoop (buildMetadataMap c1entries) zeroImageData)).1 FieldId.TimeOffset =
      .str "+0200" ∧
      (reflectionLoop (buildMetadataMap c1entries)
          ((extractGPSInfo c1collab (buildMetadataMap c1entries) (some c1gps)
            zeroImageData).1)) FieldId.TimeOffset = .str "+0100" ∧
      FieldVal.str "+0200" ≠ .str "+0100" := by decide
